import Mathlib

set_option maxRecDepth 100000

/-!
Verification of the hashline edit core of the pi-mono repository.

Strings from the TypeScript source are modelled as `List Char`; line buffers as
`List (List Char)`; thrown exceptions as `Except HErr`; machine integers as `Nat`
with explicit `% 2 ^ 32` where 32-bit overflow matters.
-/

-- ═══════════════════════════════════════════════════════════════════════════
-- Basic character and string machinery
-- ═══════════════════════════════════════════════════════════════════════════

/-- Character class of the JavaScript regex `\s` (ECMA-262 WhiteSpace and
LineTerminator code points), used by `content.replace(/\s+/g, "")` and the
`\s*` pieces of the hashline regexes. -/
def isJsWhitespace (c : Char) : Bool :=
  let n := c.toNat
  n = 9 || n = 10 || n = 11 || n = 12 || n = 13 || n = 32 ||
  n = 0xa0 || n = 0x1680 || (0x2000 ≤ n && n ≤ 0x200a) ||
  n = 0x2028 || n = 0x2029 || n = 0x202f || n = 0x205f || n = 0x3000 || n = 0xfeff

/-- Model of the JavaScript `string.split("\n")`: splits into newline-separated
segments, always returning at least one (possibly empty) segment. -/
def splitNL : List Char → List (List Char)
  | [] => [[]]
  | c :: rest =>
    match splitNL rest with
    | [] => [[]]
    | s :: ss => if c = '\n' then [] :: s :: ss else (c :: s) :: ss

/-- Model of the JavaScript `array.join("\n")`. -/
def joinNL : List (List Char) → List Char
  | [] => []
  | [s] => s
  | s :: ss => s ++ '\n' :: joinNL ss

/-- Model of `text.replace(/\\n/g, "\n")` (`unescapeNewlines` in hashline.ts):
each literal backslash-n pair becomes a newline, scanning left to right. -/
def unescapeNewlines : List Char → List Char
  | '\\' :: 'n' :: rest => '\n' :: unescapeNewlines rest
  | c :: rest => c :: unescapeNewlines rest
  | [] => []

/-- Decimal digit character for a value below ten. -/
def digitChar (n : Nat) : Char := Char.ofNat (48 + n)

/-- Fuel-indexed worker for `natChars`; structural recursion keeps it
kernel-reducible. -/
def natCharsAux : Nat → Nat → List Char
  | 0, _ => []
  | fuel + 1, n =>
    if n < 10 then [digitChar n]
    else natCharsAux fuel (n / 10) ++ [digitChar (n % 10)]

/-- Decimal rendering of a natural number (the JavaScript `String(n)` /
template-literal rendering for the non-negative integers that occur here). -/
def natChars (n : Nat) : List Char := natCharsAux (n + 1) n

/-- Numeric value of a list of decimal digit characters (the JavaScript
`Number.parseInt(digits, 10)` on an all-digit string). -/
def digitsVal (ds : List Char) : Nat :=
  ds.foldl (fun acc c => 10 * acc + (c.toNat - 48)) 0

/-- Left-pad with spaces to the given width (JavaScript `String.padStart(w, " ")`). -/
def padStartSpaces (w : Nat) (s : List Char) : List Char :=
  List.replicate (w - s.length) ' ' ++ s

-- ═══════════════════════════════════════════════════════════════════════════
-- MD5 (node:crypto createHash("md5")), over byte lists, 32-bit words as Nat
-- ═══════════════════════════════════════════════════════════════════════════

/-- Truncation to a 32-bit word. -/
def u32 (n : Nat) : Nat := n % 4294967296

/-- Left rotation of a 32-bit word. -/
def rotl32 (x s : Nat) : Nat := u32 ((x <<< s) ||| (x >>> (32 - s)))

/-- Bitwise complement of a 32-bit word. -/
def not32 (x : Nat) : Nat := 4294967295 - x

/-- The 64 MD5 sine-derived round constants. -/
def md5K : List Nat :=
  [3614090360, 3905402710, 606105819, 3250441966, 4118548399, 1200080426,
   2821735955, 4249261313, 1770035416, 2336552879, 4294925233, 2304563134,
   1804603682, 4254626195, 2792965006, 1236535329, 4129170786, 3225465664,
   643717713, 3921069994, 3593408605, 38016083, 3634488961, 3889429448,
   568446438, 3275163606, 4107603335, 1163531501, 2850285829, 4243563512,
   1735328473, 2368359562, 4294588738, 2272392833, 1839030562, 4259657740,
   2763975236, 1272893353, 4139469664, 3200236656, 681279174, 3936430074,
   3572445317, 76029189, 3654602809, 3873151461, 530742520, 3299628645,
   4096336452, 1126891415, 2878612391, 4237533241, 1700485571, 2399980690,
   4293915773, 2240044497, 1873313359, 4264355552, 2734768916, 1309151649,
   4149444226, 3174756917, 718787259, 3951481745]

/-- The 64 MD5 per-round shift amounts. -/
def md5S : List Nat :=
  [7, 12, 17, 22, 7, 12, 17, 22, 7, 12, 17, 22, 7, 12, 17, 22,
   5, 9, 14, 20, 5, 9, 14, 20, 5, 9, 14, 20, 5, 9, 14, 20,
   4, 11, 16, 23, 4, 11, 16, 23, 4, 11, 16, 23, 4, 11, 16, 23,
   6, 10, 15, 21, 6, 10, 15, 21, 6, 10, 15, 21, 6, 10, 15, 21]

/-- MD5 nonlinear mixing function for round `i`. -/
def md5F (i b c d : Nat) : Nat :=
  if i < 16 then (b &&& c) ||| (not32 b &&& d)
  else if i < 32 then (d &&& b) ||| (not32 d &&& c)
  else if i < 48 then b ^^^ c ^^^ d
  else c ^^^ (b ||| not32 d)

/-- MD5 message-word index for round `i`. -/
def md5G (i : Nat) : Nat :=
  if i < 16 then i
  else if i < 32 then (5 * i + 1) % 16
  else if i < 48 then (3 * i + 5) % 16
  else (7 * i) % 16

/-- Little-endian 32-bit word `g` of a 64-byte block. -/
def blockWord (block : List Nat) (g : Nat) : Nat :=
  block.getD (4 * g) 0 + 256 * block.getD (4 * g + 1) 0 +
  65536 * block.getD (4 * g + 2) 0 + 16777216 * block.getD (4 * g + 3) 0

/-- One MD5 round on the state quadruple. -/
def md5Round (block : List Nat) (i : Nat) : Nat × Nat × Nat × Nat → Nat × Nat × Nat × Nat
  | (a, b, c, d) =>
    let f := u32 (md5F i b c d + a + md5K.getD i 0 + blockWord block (md5G i))
    (d, u32 (b + rotl32 f (md5S.getD i 0)), b, c)

/-- Iterate `fuel` MD5 rounds starting at round index `i`. -/
def md5Iter (block : List Nat) : Nat → Nat → Nat × Nat × Nat × Nat → Nat × Nat × Nat × Nat
  | _, 0, st => st
  | i, fuel + 1, st => md5Iter block (i + 1) fuel (md5Round block i st)

/-- Process one 64-byte block: 64 rounds, then add into the chaining state. -/
def md5Block (st : Nat × Nat × Nat × Nat) (block : List Nat) : Nat × Nat × Nat × Nat :=
  match st, md5Iter block 0 64 st with
  | (a0, b0, c0, d0), (a, b, c, d) => (u32 (a0 + a), u32 (b0 + b), u32 (c0 + c), u32 (d0 + d))

/-- Fuel-indexed worker for `chunks64`; structural recursion keeps it
kernel-reducible. -/
def chunks64Aux : Nat → List Nat → List (List Nat)
  | 0, _ => []
  | fuel + 1, l =>
    if l.isEmpty then [] else l.take 64 :: chunks64Aux fuel (l.drop 64)

/-- Split a byte list into 64-byte chunks. -/
def chunks64 (l : List Nat) : List (List Nat) := chunks64Aux l.length l

/-- Little-endian bytes of a value, `k` bytes wide. -/
def leBytes : Nat → Nat → List Nat
  | 0, _ => []
  | k + 1, n => n % 256 :: leBytes k (n / 256)

/-- MD5 padding: append `0x80`, zero bytes to 56 mod 64, then the 64-bit
little-endian bit length. -/
def md5Pad (msg : List Nat) : List Nat :=
  let z := (120 - (msg.length + 1) % 64) % 64
  msg ++ [128] ++ List.replicate z 0 ++ leBytes 8 (8 * msg.length)

/-- Full MD5 digest of a byte list, as the 16 digest bytes. -/
def md5Digest (msg : List Nat) : List Nat :=
  match (chunks64 (md5Pad msg)).foldl md5Block
      (1732584193, 4023233417, 2562383102, 271733878) with
  | (a, b, c, d) => leBytes 4 a ++ leBytes 4 b ++ leBytes 4 c ++ leBytes 4 d

/-- Model of Node's `Buffer.readUInt32LE(i)` on a digest byte list. -/
def readUInt32LE (bytes : List Nat) (i : Nat) : Nat :=
  bytes.getD i 0 + 256 * bytes.getD (i + 1) 0 +
  65536 * bytes.getD (i + 2) 0 + 16777216 * bytes.getD (i + 3) 0

/-- UTF-8 encoding of one character. -/
def utf8Char (c : Char) : List Nat :=
  let n := c.toNat
  if n < 128 then [n]
  else if n < 2048 then [192 + n / 64, 128 + n % 64]
  else if n < 65536 then [224 + n / 4096, 128 + n / 64 % 64, 128 + n % 64]
  else [240 + n / 262144, 128 + n / 4096 % 64, 128 + n / 64 % 64, 128 + n % 64]

/-- UTF-8 encoding of a character list (the byte view Node hashes). -/
def utf8 (s : List Char) : List Nat := s.flatMap utf8Char

example : md5Digest (utf8 "a".toList) = [12, 193, 117, 185, 192, 241, 182, 168, 49, 195, 153, 226, 105, 119, 38, 97] := by decide

-- ═══════════════════════════════════════════════════════════════════════════
-- Hashline core (packages/coding-agent/src/core/tools/hashline.ts)
-- ═══════════════════════════════════════════════════════════════════════════

/-- The 16-symbol nibble alphabet `HASHLINE_ALPHABET = "ZPMQVRWSNKTXJBYH"`. -/
def hashlineAlphabet : List Char :=
  ['Z', 'P', 'M', 'Q', 'V', 'R', 'W', 'S', 'N', 'K', 'T', 'X', 'J', 'B', 'Y', 'H']

/-- The 256 two-character codes `HASHLINE_DICT`, built as `alphabet[hi] ++ alphabet[lo]`
for `hi, lo` ranging over `0..15`. -/
def hashlineDict : List (List Char) :=
  (List.range 16).flatMap fun hi =>
    (List.range 16).map fun lo =>
      [hashlineAlphabet.getD hi 'Z', hashlineAlphabet.getD lo 'Z']

/-- Parsed form of a `LINE#ID` reference (`interface LineRef`). -/
structure LineRef where
  line : Nat
  hash : List Char
deriving DecidableEq

/-- The eight canonical edit variants (`type HashlineEdit`). Reference fields hold
raw `LINE#ID` strings exactly as in the source. -/
inductive HashlineEdit where
  | setLine (line text : List Char)
  | replaceLines (startLine endLine text : List Char)
  | insertAfter (line text : List Char)
  | insertBefore (line text : List Char)
  | insertBetween (afterLine beforeLine text : List Char)
  | replace (startLine endLine text : List Char)
  | append (text : List Char)
  | prepend (text : List Char)
deriving DecidableEq

/-- One entry of the batched hash-mismatch report (`interface HashlineMismatch`). -/
structure HashlineMismatch where
  ref : List Char
  line : Nat
  expectedHash : List Char
  currentHash : List Char
  content : List Char
deriving DecidableEq

/-- Error kinds thrown by the hashline core (the spec §7 taxonomy restricted to
this subsystem). A `hashMismatch` error carries the full batched report; the
source renders each entry as literal content plus the corrected
`line#currentHash` reference. -/
inductive HErr where
  | invalidRefFormat (ref : List Char)
  | notALineNumber (ref : List Char)
  | outOfBounds (line fileLines : Nat)
  | hashMismatch (mismatches : List HashlineMismatch)
  | invalidRange (startLine endLine : Nat)
  | notAdjacent (afterLine beforeLine : Nat)
  | overlappingEdits
  | conflictingEdits
deriving DecidableEq

instance {ε α : Type} [DecidableEq ε] [DecidableEq α] : DecidableEq (Except ε α)
  | .ok a, .ok b =>
    if h : a = b then .isTrue (by rw [h]) else .isFalse (by simpa using h)
  | .error e1, .error e2 =>
    if h : e1 = e2 then .isTrue (by rw [h]) else .isFalse (by simpa using h)
  | .ok _, .error _ => .isFalse (by simp)
  | .error _, .ok _ => .isFalse (by simp)

/-- Whitespace deletion `content.replace(/\s+/g, "")` (`normalizeLineContent`). -/
def normalizeLineContent (content : List Char) : List Char :=
  content.filter fun c => !isJsWhitespace c

/-- Ranges of Unicode code points whose general category is a letter category
(Lu, Ll, Lt, Lm, Lo) or a number category (Nd, Nl, No): the code-point set the
`/[\p{L}\p{N}]/u` character class matches, from the Unicode character
database (version 14.0). -/
def letterOrNumberRanges : List (Nat × Nat) := [
  (48, 57), (65, 90), (97, 122), (170, 170), (178, 179), (181, 181),
  (185, 186), (188, 190), (192, 214), (216, 246), (248, 705), (710, 721),
  (736, 740), (748, 748), (750, 750), (880, 884), (886, 887), (890, 893),
  (895, 895), (902, 902), (904, 906), (908, 908), (910, 929), (931, 1013),
  (1015, 1153), (1162, 1327), (1329, 1366), (1369, 1369), (1376, 1416), (1488, 1514),
  (1519, 1522), (1568, 1610), (1632, 1641), (1646, 1647), (1649, 1747), (1749, 1749),
  (1765, 1766), (1774, 1788), (1791, 1791), (1808, 1808), (1810, 1839), (1869, 1957),
  (1969, 1969), (1984, 2026), (2036, 2037), (2042, 2042), (2048, 2069), (2074, 2074),
  (2084, 2084), (2088, 2088), (2112, 2136), (2144, 2154), (2160, 2183), (2185, 2190),
  (2208, 2249), (2308, 2361), (2365, 2365), (2384, 2384), (2392, 2401), (2406, 2415),
  (2417, 2432), (2437, 2444), (2447, 2448), (2451, 2472), (2474, 2480), (2482, 2482),
  (2486, 2489), (2493, 2493), (2510, 2510), (2524, 2525), (2527, 2529), (2534, 2545),
  (2548, 2553), (2556, 2556), (2565, 2570), (2575, 2576), (2579, 2600), (2602, 2608),
  (2610, 2611), (2613, 2614), (2616, 2617), (2649, 2652), (2654, 2654), (2662, 2671),
  (2674, 2676), (2693, 2701), (2703, 2705), (2707, 2728), (2730, 2736), (2738, 2739),
  (2741, 2745), (2749, 2749), (2768, 2768), (2784, 2785), (2790, 2799), (2809, 2809),
  (2821, 2828), (2831, 2832), (2835, 2856), (2858, 2864), (2866, 2867), (2869, 2873),
  (2877, 2877), (2908, 2909), (2911, 2913), (2918, 2927), (2929, 2935), (2947, 2947),
  (2949, 2954), (2958, 2960), (2962, 2965), (2969, 2970), (2972, 2972), (2974, 2975),
  (2979, 2980), (2984, 2986), (2990, 3001), (3024, 3024), (3046, 3058), (3077, 3084),
  (3086, 3088), (3090, 3112), (3114, 3129), (3133, 3133), (3160, 3162), (3165, 3165),
  (3168, 3169), (3174, 3183), (3192, 3198), (3200, 3200), (3205, 3212), (3214, 3216),
  (3218, 3240), (3242, 3251), (3253, 3257), (3261, 3261), (3293, 3294), (3296, 3297),
  (3302, 3311), (3313, 3314), (3332, 3340), (3342, 3344), (3346, 3386), (3389, 3389),
  (3406, 3406), (3412, 3414), (3416, 3425), (3430, 3448), (3450, 3455), (3461, 3478),
  (3482, 3505), (3507, 3515), (3517, 3517), (3520, 3526), (3558, 3567), (3585, 3632),
  (3634, 3635), (3648, 3654), (3664, 3673), (3713, 3714), (3716, 3716), (3718, 3722),
  (3724, 3747), (3749, 3749), (3751, 3760), (3762, 3763), (3773, 3773), (3776, 3780),
  (3782, 3782), (3792, 3801), (3804, 3807), (3840, 3840), (3872, 3891), (3904, 3911),
  (3913, 3948), (3976, 3980), (4096, 4138), (4159, 4169), (4176, 4181), (4186, 4189),
  (4193, 4193), (4197, 4198), (4206, 4208), (4213, 4225), (4238, 4238), (4240, 4249),
  (4256, 4293), (4295, 4295), (4301, 4301), (4304, 4346), (4348, 4680), (4682, 4685),
  (4688, 4694), (4696, 4696), (4698, 4701), (4704, 4744), (4746, 4749), (4752, 4784),
  (4786, 4789), (4792, 4798), (4800, 4800), (4802, 4805), (4808, 4822), (4824, 4880),
  (4882, 4885), (4888, 4954), (4969, 4988), (4992, 5007), (5024, 5109), (5112, 5117),
  (5121, 5740), (5743, 5759), (5761, 5786), (5792, 5866), (5870, 5880), (5888, 5905),
  (5919, 5937), (5952, 5969), (5984, 5996), (5998, 6000), (6016, 6067), (6103, 6103),
  (6108, 6108), (6112, 6121), (6128, 6137), (6160, 6169), (6176, 6264), (6272, 6276),
  (6279, 6312), (6314, 6314), (6320, 6389), (6400, 6430), (6470, 6509), (6512, 6516),
  (6528, 6571), (6576, 6601), (6608, 6618), (6656, 6678), (6688, 6740), (6784, 6793),
  (6800, 6809), (6823, 6823), (6917, 6963), (6981, 6988), (6992, 7001), (7043, 7072),
  (7086, 7141), (7168, 7203), (7232, 7241), (7245, 7293), (7296, 7304), (7312, 7354),
  (7357, 7359), (7401, 7404), (7406, 7411), (7413, 7414), (7418, 7418), (7424, 7615),
  (7680, 7957), (7960, 7965), (7968, 8005), (8008, 8013), (8016, 8023), (8025, 8025),
  (8027, 8027), (8029, 8029), (8031, 8061), (8064, 8116), (8118, 8124), (8126, 8126),
  (8130, 8132), (8134, 8140), (8144, 8147), (8150, 8155), (8160, 8172), (8178, 8180),
  (8182, 8188), (8304, 8305), (8308, 8313), (8319, 8329), (8336, 8348), (8450, 8450),
  (8455, 8455), (8458, 8467), (8469, 8469), (8473, 8477), (8484, 8484), (8486, 8486),
  (8488, 8488), (8490, 8493), (8495, 8505), (8508, 8511), (8517, 8521), (8526, 8526),
  (8528, 8585), (9312, 9371), (9450, 9471), (10102, 10131), (11264, 11492), (11499, 11502),
  (11506, 11507), (11517, 11517), (11520, 11557), (11559, 11559), (11565, 11565), (11568, 11623),
  (11631, 11631), (11648, 11670), (11680, 11686), (11688, 11694), (11696, 11702), (11704, 11710),
  (11712, 11718), (11720, 11726), (11728, 11734), (11736, 11742), (11823, 11823), (12293, 12295),
  (12321, 12329), (12337, 12341), (12344, 12348), (12353, 12438), (12445, 12447), (12449, 12538),
  (12540, 12543), (12549, 12591), (12593, 12686), (12690, 12693), (12704, 12735), (12784, 12799),
  (12832, 12841), (12872, 12879), (12881, 12895), (12928, 12937), (12977, 12991), (13312, 19903),
  (19968, 42124), (42192, 42237), (42240, 42508), (42512, 42539), (42560, 42606), (42623, 42653),
  (42656, 42735), (42775, 42783), (42786, 42888), (42891, 42954), (42960, 42961), (42963, 42963),
  (42965, 42969), (42994, 43009), (43011, 43013), (43015, 43018), (43020, 43042), (43056, 43061),
  (43072, 43123), (43138, 43187), (43216, 43225), (43250, 43255), (43259, 43259), (43261, 43262),
  (43264, 43301), (43312, 43334), (43360, 43388), (43396, 43442), (43471, 43481), (43488, 43492),
  (43494, 43518), (43520, 43560), (43584, 43586), (43588, 43595), (43600, 43609), (43616, 43638),
  (43642, 43642), (43646, 43695), (43697, 43697), (43701, 43702), (43705, 43709), (43712, 43712),
  (43714, 43714), (43739, 43741), (43744, 43754), (43762, 43764), (43777, 43782), (43785, 43790),
  (43793, 43798), (43808, 43814), (43816, 43822), (43824, 43866), (43868, 43881), (43888, 44002),
  (44016, 44025), (44032, 55203), (55216, 55238), (55243, 55291), (63744, 64109), (64112, 64217),
  (64256, 64262), (64275, 64279), (64285, 64285), (64287, 64296), (64298, 64310), (64312, 64316),
  (64318, 64318), (64320, 64321), (64323, 64324), (64326, 64433), (64467, 64829), (64848, 64911),
  (64914, 64967), (65008, 65019), (65136, 65140), (65142, 65276), (65296, 65305), (65313, 65338),
  (65345, 65370), (65382, 65470), (65474, 65479), (65482, 65487), (65490, 65495), (65498, 65500),
  (65536, 65547), (65549, 65574), (65576, 65594), (65596, 65597), (65599, 65613), (65616, 65629),
  (65664, 65786), (65799, 65843), (65856, 65912), (65930, 65931), (66176, 66204), (66208, 66256),
  (66273, 66299), (66304, 66339), (66349, 66378), (66384, 66421), (66432, 66461), (66464, 66499),
  (66504, 66511), (66513, 66517), (66560, 66717), (66720, 66729), (66736, 66771), (66776, 66811),
  (66816, 66855), (66864, 66915), (66928, 66938), (66940, 66954), (66956, 66962), (66964, 66965),
  (66967, 66977), (66979, 66993), (66995, 67001), (67003, 67004), (67072, 67382), (67392, 67413),
  (67424, 67431), (67456, 67461), (67463, 67504), (67506, 67514), (67584, 67589), (67592, 67592),
  (67594, 67637), (67639, 67640), (67644, 67644), (67647, 67669), (67672, 67702), (67705, 67742),
  (67751, 67759), (67808, 67826), (67828, 67829), (67835, 67867), (67872, 67897), (67968, 68023),
  (68028, 68047), (68050, 68096), (68112, 68115), (68117, 68119), (68121, 68149), (68160, 68168),
  (68192, 68222), (68224, 68255), (68288, 68295), (68297, 68324), (68331, 68335), (68352, 68405),
  (68416, 68437), (68440, 68466), (68472, 68497), (68521, 68527), (68608, 68680), (68736, 68786),
  (68800, 68850), (68858, 68899), (68912, 68921), (69216, 69246), (69248, 69289), (69296, 69297),
  (69376, 69415), (69424, 69445), (69457, 69460), (69488, 69505), (69552, 69579), (69600, 69622),
  (69635, 69687), (69714, 69743), (69745, 69746), (69749, 69749), (69763, 69807), (69840, 69864),
  (69872, 69881), (69891, 69926), (69942, 69951), (69956, 69956), (69959, 69959), (69968, 70002),
  (70006, 70006), (70019, 70066), (70081, 70084), (70096, 70106), (70108, 70108), (70113, 70132),
  (70144, 70161), (70163, 70187), (70272, 70278), (70280, 70280), (70282, 70285), (70287, 70301),
  (70303, 70312), (70320, 70366), (70384, 70393), (70405, 70412), (70415, 70416), (70419, 70440),
  (70442, 70448), (70450, 70451), (70453, 70457), (70461, 70461), (70480, 70480), (70493, 70497),
  (70656, 70708), (70727, 70730), (70736, 70745), (70751, 70753), (70784, 70831), (70852, 70853),
  (70855, 70855), (70864, 70873), (71040, 71086), (71128, 71131), (71168, 71215), (71236, 71236),
  (71248, 71257), (71296, 71338), (71352, 71352), (71360, 71369), (71424, 71450), (71472, 71483),
  (71488, 71494), (71680, 71723), (71840, 71922), (71935, 71942), (71945, 71945), (71948, 71955),
  (71957, 71958), (71960, 71983), (71999, 71999), (72001, 72001), (72016, 72025), (72096, 72103),
  (72106, 72144), (72161, 72161), (72163, 72163), (72192, 72192), (72203, 72242), (72250, 72250),
  (72272, 72272), (72284, 72329), (72349, 72349), (72368, 72440), (72704, 72712), (72714, 72750),
  (72768, 72768), (72784, 72812), (72818, 72847), (72960, 72966), (72968, 72969), (72971, 73008),
  (73030, 73030), (73040, 73049), (73056, 73061), (73063, 73064), (73066, 73097), (73112, 73112),
  (73120, 73129), (73440, 73458), (73648, 73648), (73664, 73684), (73728, 74649), (74752, 74862),
  (74880, 75075), (77712, 77808), (77824, 78894), (82944, 83526), (92160, 92728), (92736, 92766),
  (92768, 92777), (92784, 92862), (92864, 92873), (92880, 92909), (92928, 92975), (92992, 92995),
  (93008, 93017), (93019, 93025), (93027, 93047), (93053, 93071), (93760, 93846), (93952, 94026),
  (94032, 94032), (94099, 94111), (94176, 94177), (94179, 94179), (94208, 100343), (100352, 101589),
  (101632, 101640), (110576, 110579), (110581, 110587), (110589, 110590), (110592, 110882), (110928, 110930),
  (110948, 110951), (110960, 111355), (113664, 113770), (113776, 113788), (113792, 113800), (113808, 113817),
  (119520, 119539), (119648, 119672), (119808, 119892), (119894, 119964), (119966, 119967), (119970, 119970),
  (119973, 119974), (119977, 119980), (119982, 119993), (119995, 119995), (119997, 120003), (120005, 120069),
  (120071, 120074), (120077, 120084), (120086, 120092), (120094, 120121), (120123, 120126), (120128, 120132),
  (120134, 120134), (120138, 120144), (120146, 120485), (120488, 120512), (120514, 120538), (120540, 120570),
  (120572, 120596), (120598, 120628), (120630, 120654), (120656, 120686), (120688, 120712), (120714, 120744),
  (120746, 120770), (120772, 120779), (120782, 120831), (122624, 122654), (123136, 123180), (123191, 123197),
  (123200, 123209), (123214, 123214), (123536, 123565), (123584, 123627), (123632, 123641), (124896, 124902),
  (124904, 124907), (124909, 124910), (124912, 124926), (124928, 125124), (125127, 125135), (125184, 125251),
  (125259, 125259), (125264, 125273), (126065, 126123), (126125, 126127), (126129, 126132), (126209, 126253),
  (126255, 126269), (126464, 126467), (126469, 126495), (126497, 126498), (126500, 126500), (126503, 126503),
  (126505, 126514), (126516, 126519), (126521, 126521), (126523, 126523), (126530, 126530), (126535, 126535),
  (126537, 126537), (126539, 126539), (126541, 126543), (126545, 126546), (126548, 126548), (126551, 126551),
  (126553, 126553), (126555, 126555), (126557, 126557), (126559, 126559), (126561, 126562), (126564, 126564),
  (126567, 126570), (126572, 126578), (126580, 126583), (126585, 126588), (126590, 126590), (126592, 126601),
  (126603, 126619), (126625, 126627), (126629, 126633), (126635, 126651), (127232, 127244), (130032, 130041),
  (131072, 173791), (173824, 177976), (177984, 178205), (178208, 183969), (183984, 191456), (194560, 195101),
  (196608, 201546)]

/-- Membership of a character in `\p{L}` or `\p{N}`: its code point falls in
one of the letter/number ranges. -/
def isUnicodeLetterOrNumber (c : Char) : Bool :=
  letterOrNumberRanges.any fun p => p.1 ≤ c.toNat && c.toNat ≤ p.2

/-- Test `/[\p{L}\p{N}]/u` on the stripped content (`hasSignificantContent`):
some character is a Unicode letter or number. -/
def hasSignificantContent (stripped : List Char) : Bool :=
  stripped.any fun c => isUnicodeLetterOrNumber c

/-- Compute the 2-char hash ID for a line (`computeLineHash`): significance-aware
seed, then `md5(seed ++ NUL ++ stripped).readUInt32LE(0) % 256` indexes the dict. -/
def computeLineHash (lineNumber : Nat) (content : List Char) : List Char :=
  let stripped := normalizeLineContent content
  let seed := if hasSignificantContent stripped then 0 else lineNumber
  let index := readUInt32LE (md5Digest (utf8 (natChars seed) ++ [0] ++ utf8 stripped)) 0 % 256
  hashlineDict.getD index ['Z', 'Z']

/-- Parse a `LINE#ID` reference against `HASHLINE_REF_PATTERN`
`^([0-9]+)#([ZPMQVRWSNKTXJBYH]{2})$` (`parseLineRef` as it appears in src). -/
def parseLineRef (ref : List Char) : Except HErr LineRef :=
  let digits := ref.takeWhile Char.isDigit
  match ref.dropWhile Char.isDigit with
  | '#' :: a :: b :: [] =>
    if digits.isEmpty then .error (.invalidRefFormat ref)
    else if a ∈ hashlineAlphabet ∧ b ∈ hashlineAlphabet then .ok ⟨digitsVal digits, [a, b]⟩
    else .error (.invalidRefFormat ref)
  | _ => .error (.invalidRefFormat ref)

/-- Worker for `validateLineRefs`: walks the references, failing immediately on a
parse error or an out-of-bounds line, accumulating hash mismatches, and failing
once at the end with the batched report when any accumulated. -/
def validateLineRefsAux (lines : List (List Char)) (acc : List HashlineMismatch) :
    List (List Char) → Except HErr Unit
  | [] => if acc.isEmpty then .ok () else .error (.hashMismatch acc)
  | ref :: rest =>
    match parseLineRef ref with
    | .error e => .error e
    | .ok lr =>
      if lr.line < 1 ∨ lines.length < lr.line then
        .error (.outOfBounds lr.line lines.length)
      else
        let content := lines.getD (lr.line - 1) []
        let currentHash := computeLineHash lr.line content
        if currentHash ≠ lr.hash then
          validateLineRefsAux lines (acc ++ [⟨ref, lr.line, lr.hash, currentHash, content⟩]) rest
        else
          validateLineRefsAux lines acc rest

/-- Batch validation (`validateLineRefs`): all mismatches reported at once. -/
def validateLineRefs (lines refs : List (List Char)) : Except HErr Unit :=
  validateLineRefsAux lines [] refs

/-- Line references contributed by one edit, in push order (`collectLineRefs` body). -/
def refsOfEdit : HashlineEdit → List (List Char)
  | .setLine l _ => [l]
  | .replaceLines s e _ => [s, e]
  | .replace s e _ => [s, e]
  | .insertAfter l _ => [l]
  | .insertBefore l _ => [l]
  | .insertBetween a b _ => [a, b]
  | .append _ => []
  | .prepend _ => []

/-- Collect all line references of a batch (`collectLineRefs`). -/
def collectLineRefs (edits : List HashlineEdit) : List (List Char) :=
  edits.flatMap refsOfEdit

/-- The JavaScript `Number.MAX_SAFE_INTEGER`. -/
def maxSafeInteger : Nat := 9007199254740991

/-- Primary sort key of an edit (`getEditLineNumber`): range end for ranges, the
referenced line for point ops, `MAX_SAFE_INTEGER` for append, `0` for prepend.
Parse failures propagate as in the source (which throws from `parseLineRef`). -/
def getEditLineNumber : HashlineEdit → Except HErr Nat
  | .setLine l _ => (parseLineRef l).map LineRef.line
  | .replaceLines _ e _ => (parseLineRef e).map LineRef.line
  | .replace _ e _ => (parseLineRef e).map LineRef.line
  | .insertAfter l _ => (parseLineRef l).map LineRef.line
  | .insertBefore l _ => (parseLineRef l).map LineRef.line
  | .insertBetween _ b _ => (parseLineRef b).map LineRef.line
  | .append _ => .ok maxSafeInteger
  | .prepend _ => .ok 0

/-- Total sort key used when modelling the comparator. Inside `applyHashlineEdits`
the key is only consulted after batch validation has parsed every reference, so
the fallback value is unreachable there. -/
def editAnchor (e : HashlineEdit) : Nat :=
  match getEditLineNumber e with
  | .ok n => n
  | .error _ => 0

/-- JavaScript `array.splice(start, deleteCount, ...newItems)` on a line buffer
(for the in-range arguments produced after validation). -/
def spliceList (l : List (List Char)) (start del : Nat) (new : List (List Char)) :
    List (List Char) :=
  l.take start ++ new ++ l.drop (start + del)

/-- Apply one already-validated edit to the line buffer: one arm of the `switch`
inside `applyHashlineEdits`. -/
def applyEdit (lines : List (List Char)) : HashlineEdit → Except HErr (List (List Char))
  | .setLine l text => do
    let lr ← parseLineRef l
    pure (lines.set (lr.line - 1) (unescapeNewlines text))
  | .replaceLines s e text => do
    let slr ← parseLineRef s
    let elr ← parseLineRef e
    if elr.line < slr.line then
      Except.error (.invalidRange slr.line elr.line)
    else
      let t := unescapeNewlines text
      let newLines := if t.isEmpty then [] else splitNL t
      pure (spliceList lines (slr.line - 1) (elr.line - slr.line + 1) newLines)
  | .replace s e text => do
    let slr ← parseLineRef s
    let elr ← parseLineRef e
    if elr.line < slr.line then
      Except.error (.invalidRange slr.line elr.line)
    else
      let t := unescapeNewlines text
      let newLines := if t.isEmpty then [] else splitNL t
      pure (spliceList lines (slr.line - 1) (elr.line - slr.line + 1) newLines)
  | .insertAfter l text => do
    let lr ← parseLineRef l
    pure (spliceList lines lr.line 0 (splitNL (unescapeNewlines text)))
  | .insertBefore l text => do
    let lr ← parseLineRef l
    pure (spliceList lines (lr.line - 1) 0 (splitNL (unescapeNewlines text)))
  | .insertBetween a b text => do
    let alr ← parseLineRef a
    let blr ← parseLineRef b
    if blr.line ≠ alr.line + 1 then
      Except.error (.notAdjacent alr.line blr.line)
    else
      pure (spliceList lines alr.line 0 (splitNL (unescapeNewlines text)))
  | .append text => pure (lines ++ splitNL (unescapeNewlines text))
  | .prepend text => pure (splitNL (unescapeNewlines text) ++ lines)

/-- Apply a batch of hashline edits (`applyHashlineEdits` in src): split into
lines, batch-validate every collected reference, sort bottom-up (highest anchor
first, stable for ties like the JavaScript sort), apply each edit, and re-join. -/
def applyHashlineEdits (content : List Char) (edits : List HashlineEdit) :
    Except HErr (List Char) :=
  if edits.isEmpty then .ok content
  else
    let lines := splitNL content
    let refs := collectLineRefs edits
    match (if refs.isEmpty then .ok () else validateLineRefs lines refs) with
    | .error e => .error e
    | .ok _ =>
      let sortedEdits := List.insertionSort (fun a b => editAnchor b ≤ editAnchor a) edits
      match sortedEdits.foldlM applyEdit lines with
      | .error e => .error e
      | .ok ls => .ok (joinNL ls)

/-- Helper mirroring the hashline tests: a correct reference string for a line. -/
def mkRef (lineNumber : Nat) (content : List Char) : List Char :=
  natChars lineNumber ++ '#' :: computeLineHash lineNumber content

example : computeLineHash 1 "const x = 1".toList = computeLineHash 100 "const  x =  1".toList := by decide
example : applyHashlineEdits "line 1\nline 2\nline 3".toList
    [.setLine (mkRef 2 "line 2".toList) "replaced".toList] =
    .ok "line 1\nreplaced\nline 3".toList := by decide

-- ═══════════════════════════════════════════════════════════════════════════
-- Parts of hashline.ts that are re-exported and tested but absent from src:
-- tolerant reference parsing, reference canonicalization, overlap detection.
-- These are modelled from the spec (§4.2, §4.5, §4.6).
-- ═══════════════════════════════════════════════════════════════════════════

/-- Drop leading JavaScript whitespace. -/
def dropWS (l : List Char) : List Char := l.dropWhile isJsWhitespace

/-- Strip one leading copy-paste marker `>>>` or `>>` when present (the
`(?:>>>|>>)?` piece of the hashline regexes; greedy matching is equivalent to
the regex here because a leftover `>` can never start the rest of the pattern). -/
def stripCopyMarker (l : List Char) : List Char :=
  if l.take 3 = ['>', '>', '>'] then l.drop 3
  else if l.take 2 = ['>', '>'] then l.drop 2
  else l

/-- Modelled from the spec: the tolerant `parseLineRef` of the current
hashline.ts is absent from src (only its tests and re-exports are present).
Spec §4.2: parses `LINE#ID`, tolerating a leading copy-paste marker, spaces
around `#`, and a trailing `:content` suffix to discard; fails with
`InvalidReferenceFormat` when no such pattern is found, and with the
distinguished `NotALineNumber` hint when a non-numeric literal token sits in
the line-number position. -/
def parseLineRefTolerant (ref : List Char) : Except HErr LineRef :=
  let s2 := dropWS (stripCopyMarker (dropWS ref))
  let digits := s2.takeWhile Char.isDigit
  if digits.isEmpty then
    let letters := s2.takeWhile Char.isAlpha
    let s4 := dropWS (s2.dropWhile Char.isAlpha)
    if !letters.isEmpty && s4.head? = some '#' then .error (.notALineNumber ref)
    else .error (.invalidRefFormat ref)
  else
    match dropWS (s2.dropWhile Char.isDigit) with
    | '#' :: s5 =>
      match dropWS s5 with
      | a :: b :: rest =>
        if a ∈ hashlineAlphabet ∧ b ∈ hashlineAlphabet then
          match rest with
          | [] => .ok ⟨digitsVal digits, [a, b]⟩
          | ':' :: _ => .ok ⟨digitsVal digits, [a, b]⟩
          | _ => .error (.invalidRefFormat ref)
        else .error (.invalidRefFormat ref)
      | _ => .error (.invalidRefFormat ref)
    | _ => .error (.invalidRefFormat ref)

/-- Modelled from the spec: `normalizeLineRef` is re-exported from hashline.ts
but absent from src. Spec §4.5 canonicalizes an anchor to a normalized
`line#hash`; an unparseable anchor is left as submitted. -/
def normalizeLineRef (ref : List Char) : List Char :=
  match parseLineRefTolerant ref with
  | .ok lr => natChars lr.line ++ '#' :: lr.hash
  | .error _ => ref

/-- Modelled from the spec: the inclusive `[start, end]` range consumed by an
edit (spec §4.6(b): point ops count as a unit range; inserts, append and
prepend consume no range). -/
def rangeOfEdit : HashlineEdit → Option (Nat × Nat)
  | .setLine l _ =>
    match parseLineRef l with
    | .ok lr => some (lr.line, lr.line)
    | .error _ => none
  | .replaceLines s e _ =>
    match parseLineRef s, parseLineRef e with
    | .ok a, .ok b => some (a.line, b.line)
    | _, _ => none
  | .replace s e _ =>
    match parseLineRef s, parseLineRef e with
    | .ok a, .ok b => some (a.line, b.line)
    | _, _ => none
  | _ => none

/-- Whether an edit is a point (degenerate one-line-range) operation. -/
def isPointEdit : HashlineEdit → Bool
  | .setLine _ _ => true
  | _ => false

/-- Intersection test for two inclusive ranges. -/
def rangesIntersectB (r1 r2 : Nat × Nat) : Bool :=
  decide (r1.1 ≤ r2.2) && decide (r2.1 ≤ r1.2)

/-- Modelled from the spec: classification of one conflicting pair, spec
§4.6(b): `ConflictingEdits` when a point edit falls inside another edit's
range, `OverlappingEdits` when two proper ranges intersect. -/
def pairConflict (a b : HashlineEdit) : Option HErr :=
  match rangeOfEdit a, rangeOfEdit b with
  | some r1, some r2 =>
    if rangesIntersectB r1 r2 then
      some (if isPointEdit a || isPointEdit b then .conflictingEdits else .overlappingEdits)
    else none
  | _, _ => none

/-- First conflict of an edit against a list of later edits. -/
def firstConflictWith (a : HashlineEdit) : List HashlineEdit → Option HErr
  | [] => none
  | b :: rest =>
    match pairConflict a b with
    | some e => some e
    | none => firstConflictWith a rest

/-- Modelled from the spec: `detectOverlappingRanges` is re-exported from
hashline.ts but absent from src. Scans all pairs of range-consuming edits and
returns the first conflict found (spec §4.6(b)). -/
def detectOverlappingRanges : List HashlineEdit → Option HErr
  | [] => none
  | a :: rest =>
    match firstConflictWith a rest with
    | some e => some e
    | none => detectOverlappingRanges rest

/-- Modelled from the spec: `applyHashlineEdits` of the current hashline.ts,
which runs the §4.6(b) conflict/overlap gate between reference validation and
application; failure is an `Except.error`, so no new content is produced. -/
def applyHashlineEditsChecked (content : List Char) (edits : List HashlineEdit) :
    Except HErr (List Char) :=
  if edits.isEmpty then .ok content
  else
    let lines := splitNL content
    let refs := collectLineRefs edits
    match (if refs.isEmpty then .ok () else validateLineRefs lines refs) with
    | .error e => .error e
    | .ok _ =>
      match detectOverlappingRanges edits with
      | some e => .error e
      | none =>
        let sortedEdits := List.insertionSort (fun a b => editAnchor b ≤ editAnchor a) edits
        match sortedEdits.foldlM applyEdit lines with
        | .error e => .error e
        | .ok ls => .ok (joinNL ls)

-- ═══════════════════════════════════════════════════════════════════════════
-- Replacement-text prefix stripping (edit-text-normalization.ts)
-- ═══════════════════════════════════════════════════════════════════════════

/-- Core of `HASHLINE_PREFIX_RE` after the optional marker:
`\s*\d+\s*#\s*[ZPMQVRWSNKTXJBYH]{2}[:|]`; returns the text after the matched
prefix. -/
def matchHashCore (l : List Char) : Option (List Char) :=
  let l1 := l.dropWhile isJsWhitespace
  if (l1.takeWhile Char.isDigit).isEmpty then none
  else
    match (l1.dropWhile Char.isDigit).dropWhile isJsWhitespace with
    | '#' :: l3 =>
      match l3.dropWhile isJsWhitespace with
      | a :: b :: c :: rest =>
        if hashlineAlphabet.contains a && hashlineAlphabet.contains b &&
            (c = ':' || c = '|') then some rest
        else none
      | _ => none
    | _ => none

/-- Match of `HASHLINE_PREFIX_RE` `^\s*(?:>>>|>>)?\s*\d+\s*#\s*[..]{2}[:|]`,
returning the text after the matched prefix. -/
def matchHashlinePrefix (l : List Char) : Option (List Char) :=
  matchHashCore (stripCopyMarker (l.dropWhile isJsWhitespace))

/-- Match of `DIFF_PLUS_RE` `^[+](?![+])`, returning the text after the `+`. -/
def matchDiffPlus (l : List Char) : Option (List Char) :=
  match l with
  | '+' :: '+' :: _ => none
  | '+' :: rest => some rest
  | _ => none

/-- Detect and strip hashline or diff prefixes from replacement lines
(`stripLinePrefixes`): stripping triggers when at least half of the non-empty
lines match the same prefix class (`count >= nonEmpty * 0.5`, i.e.
`2 * count ≥ nonEmpty`), hashline prefixes taking priority. -/
def stripLinePrefixes (lines : List (List Char)) : List (List Char) :=
  let nonEmpty := (lines.filter fun l => !l.isEmpty).length
  let hashCount := (lines.filter fun l => !l.isEmpty && (matchHashlinePrefix l).isSome).length
  let diffCount := (lines.filter fun l => !l.isEmpty && (matchDiffPlus l).isSome).length
  if nonEmpty = 0 then lines
  else if 0 < hashCount ∧ nonEmpty ≤ 2 * hashCount then
    lines.map fun l =>
      match matchHashlinePrefix l with
      | some r => r
      | none => l
  else if 0 < diffCount ∧ nonEmpty ≤ 2 * diffCount then
    lines.map fun l =>
      match matchDiffPlus l with
      | some r => r
      | none => l
  else lines

/-- Normalize text input to a line array with prefix stripping (`toNewLines`,
string overload — the one the deduplicator uses). -/
def toNewLines (input : List Char) : List (List Char) :=
  stripLinePrefixes (splitNL input)

-- ═══════════════════════════════════════════════════════════════════════════
-- Deduplication (edit-deduplication.ts, canonical-key version)
-- ═══════════════════════════════════════════════════════════════════════════

/-- Canonicalized text payload (`normalizeEditPayload`): materialize `\n`
escapes, strip echoed prefixes, re-join. -/
def normalizeEditPayload (payload : List Char) : List Char :=
  joinNL (toNewLines (unescapeNewlines payload))

/-- Canonicalized anchor (`canonicalAnchor`): empty stays empty, otherwise the
normalized `line#hash` form. -/
def canonicalAnchor (anchor : List Char) : List Char :=
  if anchor.isEmpty then [] else normalizeLineRef anchor

/-- Canonical dedupe key of an edit (`buildDedupeKey`). Note `replace_lines`
and `replace` intentionally share the `replace|` key shape. -/
def buildDedupeKey : HashlineEdit → List Char
  | .setLine l t =>
    "set_line|".toList ++ canonicalAnchor l ++ '|' :: normalizeEditPayload t
  | .replaceLines s e t =>
    "replace|".toList ++ canonicalAnchor s ++ '|' :: canonicalAnchor e ++ '|' :: normalizeEditPayload t
  | .replace s e t =>
    "replace|".toList ++ canonicalAnchor s ++ '|' :: canonicalAnchor e ++ '|' :: normalizeEditPayload t
  | .insertAfter l t =>
    "insert_after|".toList ++ canonicalAnchor l ++ '|' :: normalizeEditPayload t
  | .insertBefore l t =>
    "insert_before|".toList ++ canonicalAnchor l ++ '|' :: normalizeEditPayload t
  | .insertBetween a b t =>
    "insert_between|".toList ++ canonicalAnchor a ++ '|' :: canonicalAnchor b ++ '|' :: normalizeEditPayload t
  | .append t => "append|".toList ++ normalizeEditPayload t
  | .prepend t => "prepend|".toList ++ normalizeEditPayload t

/-- Result of deduplication (`{ edits, duplicatesRemoved }`). -/
structure DedupeResult where
  edits : List HashlineEdit
  duplicatesRemoved : Nat
deriving DecidableEq

/-- Worker for `dedupeEdits`: `seen` is the set of keys already encountered. -/
def dedupeEditsAux (seen : List (List Char)) : List HashlineEdit → DedupeResult
  | [] => ⟨[], 0⟩
  | e :: rest =>
    let key := buildDedupeKey e
    if key ∈ seen then
      let r := dedupeEditsAux seen rest
      ⟨r.edits, r.duplicatesRemoved + 1⟩
    else
      let r := dedupeEditsAux (key :: seen) rest
      ⟨e :: r.edits, r.duplicatesRemoved⟩

/-- Deduplicate semantically identical edits (`dedupeEdits`): first occurrence
wins, later edits with an identical canonical key are dropped and counted. -/
def dedupeEdits (edits : List HashlineEdit) : DedupeResult :=
  dedupeEditsAux [] edits

/-- Reference description of first-occurrence-wins filtering, used to state the
deduplication claims independently of the seen-set accumulator. -/
def keepFirstByKeyAux : Nat → List HashlineEdit → List HashlineEdit
  | 0, _ => []
  | _, [] => []
  | fuel + 1, e :: rest =>
    e :: keepFirstByKeyAux fuel (rest.filter fun x => buildDedupeKey x != buildDedupeKey e)

/-- Keep the first edit of each canonical key, dropping all later ones. -/
def keepFirstByKey (l : List HashlineEdit) : List HashlineEdit :=
  keepFirstByKeyAux l.length l

-- ═══════════════════════════════════════════════════════════════════════════
-- Diff renderer (packages/fuzzy-edit/index.ts, generateDiffString)
-- ═══════════════════════════════════════════════════════════════════════════

/-- One hunk produced by the external `diff` library's `diffLines` (an external
collaborator per spec §1); `value` is the raw text of the hunk. -/
structure DiffPart where
  value : List Char
  added : Bool
  removed : Bool
deriving DecidableEq

/-- Result of the diff renderer (`DiffResult`). -/
structure DiffResult where
  diff : List Char
  firstChangedLine : Option Nat
deriving DecidableEq

/-- Loop state of `generateDiffString`. -/
structure DiffState where
  output : List (List Char)
  oldLineNum : Nat
  newLineNum : Nat
  lastWasChange : Bool
  firstChangedLine : Option Nat
deriving DecidableEq

/-- The `raw` lines of one part: `part.value.split("\n")` with a trailing empty
segment popped. -/
def partLines (value : List Char) : List (List Char) :=
  let raw := splitNL value
  if raw.getLast? = some [] then raw.dropLast else raw

/-- Rows for a run of lines, numbered consecutively from `start`, each prefixed
with `sign` and the right-aligned padded line number. -/
def numberedRows (sign : Char) (width : Nat) : Nat → List (List Char) → List (List Char)
  | _, [] => []
  | start, l :: rest =>
    (sign :: padStartSpaces width (natChars start) ++ '|' :: l) ::
      numberedRows sign width (start + 1) rest

/-- The collapsed-run marker row: a space, `width` spaces, then `|...`. -/
def markerRow (width : Nat) : List Char :=
  ' ' :: padStartSpaces width [] ++ "|...".toList

/-- Processing of one diff part: the body of the `for` loop of
`generateDiffString`. -/
def processPart (ctx width : Nat) (st : DiffState) (part : DiffPart)
    (nextIsChange : Bool) : DiffState :=
  let raw := partLines part.value
  if part.added || part.removed then
    let first := match st.firstChangedLine with
      | none => some st.newLineNum
      | some k => some k
    if part.added then
      { output := st.output ++ numberedRows '+' width st.newLineNum raw,
        oldLineNum := st.oldLineNum, newLineNum := st.newLineNum + raw.length,
        lastWasChange := true, firstChangedLine := first }
    else
      { output := st.output ++ numberedRows '-' width st.oldLineNum raw,
        oldLineNum := st.oldLineNum + raw.length, newLineNum := st.newLineNum,
        lastWasChange := true, firstChangedLine := first }
  else
    if st.lastWasChange || nextIsChange then
      let skipStart := if st.lastWasChange then 0 else raw.length - ctx
      let shown1 := if st.lastWasChange then raw else raw.drop skipStart
      let collapseEnd := !nextIsChange && decide (ctx < shown1.length)
      let skipEnd := if collapseEnd then shown1.length - ctx else 0
      let shown2 := if collapseEnd then shown1.take ctx else shown1
      let out1 := if 0 < skipStart then st.output ++ [markerRow width] else st.output
      let out2 := out1 ++ numberedRows ' ' width (st.oldLineNum + skipStart) shown2
      let out3 := if 0 < skipEnd then out2 ++ [markerRow width] else out2
      { output := out3,
        oldLineNum := st.oldLineNum + skipStart + shown2.length + skipEnd,
        newLineNum := st.newLineNum + skipStart + shown2.length + skipEnd,
        lastWasChange := false, firstChangedLine := st.firstChangedLine }
    else
      { output := st.output, oldLineNum := st.oldLineNum + raw.length,
        newLineNum := st.newLineNum + raw.length,
        lastWasChange := false, firstChangedLine := st.firstChangedLine }

/-- Fold `processPart` over the parts, computing each part's
`nextPartIsChange` lookahead. -/
def processParts (ctx width : Nat) (st : DiffState) : List DiffPart → DiffState
  | [] => st
  | p :: rest =>
    let nextIsChange := match rest with
      | [] => false
      | q :: _ => q.added || q.removed
    processParts ctx width (processPart ctx width st p nextIsChange) rest

/-- The diff renderer (`generateDiffString`): given old and new content (used
for line-number column width) and the `diffLines` parts, emits `+`/`-`/space
prefixed numbered rows, collapsing context as the loop dictates. -/
def generateDiffString (oldContent newContent : List Char) (parts : List DiffPart)
    (contextLines : Nat) : DiffResult :=
  let maxLineNum := max (splitNL oldContent).length (splitNL newContent).length
  let width := (natChars maxLineNum).length
  let final := processParts contextLines width ⟨[], 1, 1, false, none⟩ parts
  ⟨joinNL final.output, final.firstChangedLine⟩

-- ═══════════════════════════════════════════════════════════════════════════
-- Definitions used to state the claims
-- ═══════════════════════════════════════════════════════════════════════════

/-- A reference parses and its line number is within the bounds of the buffer. -/
def refParsesInBounds (lines : List (List Char)) (r : List Char) : Prop :=
  ∃ lr, parseLineRef r = .ok lr ∧ 1 ≤ lr.line ∧ lr.line ≤ lines.length

/-- The mismatch record `validateLineRefs` accumulates for one offending
reference (`none` for a reference whose hash matches the current content). -/
def mismatchOf (lines : List (List Char)) (ref : List Char) : Option HashlineMismatch :=
  match parseLineRef ref with
  | .ok lr =>
    let content := lines.getD (lr.line - 1) []
    let currentHash := computeLineHash lr.line content
    if currentHash ≠ lr.hash then some ⟨ref, lr.line, lr.hash, currentHash, content⟩
    else none
  | .error _ => none

/-- A reference is fully valid against the buffer: parses, in bounds, and the
recomputed hash matches. -/
def refOk (lines : List (List Char)) (r : List Char) : Prop :=
  ∃ lr, parseLineRef r = .ok lr ∧ 1 ≤ lr.line ∧ lr.line ≤ lines.length ∧
    computeLineHash lr.line (lines.getD (lr.line - 1) []) = lr.hash

/-- The per-variant anchor lines of a batch are pairwise distinct. -/
def anchorsDistinct (edits : List HashlineEdit) : Prop :=
  edits.Pairwise fun a b => editAnchor a ≠ editAnchor b

/-- A batch arranged in strictly decreasing anchor order. -/
def sortedByDescAnchor (ds : List HashlineEdit) : Prop :=
  ds.Sorted fun a b => editAnchor b < editAnchor a

/-- Two edits whose consumed ranges (when both exist) do not intersect. -/
def rangesCompatibleB (a b : HashlineEdit) : Bool :=
  match rangeOfEdit a, rangeOfEdit b with
  | some r1, some r2 => !rangesIntersectB r1 r2
  | _, _ => true

/-- No two range-consuming edits of the batch have intersecting ranges. -/
def rangesDisjoint (edits : List HashlineEdit) : Prop :=
  edits.Pairwise fun a b => rangesCompatibleB a b = true

/-- Two range-consuming edits whose inclusive ranges intersect (set_line counted
as a degenerate one-line range). -/
def editsConflictAt (a b : HashlineEdit) : Prop :=
  ∃ r1 r2, rangeOfEdit a = some r1 ∧ rangeOfEdit b = some r2 ∧ rangesIntersectB r1 r2 = true

instance (edits : List HashlineEdit) : Decidable (anchorsDistinct edits) :=
  inferInstanceAs (Decidable (edits.Pairwise fun a b => editAnchor a ≠ editAnchor b))

instance (ds : List HashlineEdit) : Decidable (sortedByDescAnchor ds) :=
  inferInstanceAs (Decidable (List.Sorted (fun a b => editAnchor b < editAnchor a) ds))

instance (edits : List HashlineEdit) : Decidable (rangesDisjoint edits) :=
  inferInstanceAs (Decidable (edits.Pairwise fun a b => rangesCompatibleB a b = true))

/-- Apply a validated batch one edit at a time in exactly the given order (no
sorting): the reference point for the bottom-up ordering claim. -/
def applyEditsInOrder (content : List Char) (ds : List HashlineEdit) :
    Except HErr (List Char) :=
  if ds.isEmpty then .ok content
  else
    let lines := splitNL content
    match validateLineRefs lines (collectLineRefs ds) with
    | .error e => .error e
    | .ok _ =>
      match ds.foldlM applyEdit lines with
      | .error e => .error e
      | .ok ls => .ok (joinNL ls)

/-- The tolerated `LINE#ID` pattern of spec §4.2, as a relation: the input
decomposes into optional whitespace, an optional copy-paste marker, optional
whitespace, a nonempty digit run valuing the line, optional whitespace, `#`,
optional whitespace, two alphabet characters, and either nothing or a
discarded `:content` suffix. -/
def refPatternAt (s : List Char) (lr : LineRef) : Prop :=
  ∃ sp1 mark sp2 ds sp3 sp4 a b suffix,
    s = sp1 ++ mark ++ sp2 ++ ds ++ sp3 ++ '#' :: sp4 ++ a :: b :: suffix ∧
    (mark = ['>', '>', '>'] ∨ mark = ['>', '>'] ∨ mark = []) ∧
    (∀ c ∈ sp1 ++ sp2 ++ sp3 ++ sp4, isJsWhitespace c = true) ∧
    ds ≠ [] ∧ (∀ c ∈ ds, c.isDigit = true) ∧
    a ∈ hashlineAlphabet ∧ b ∈ hashlineAlphabet ∧
    (suffix = [] ∨ ∃ s5, suffix = ':' :: s5) ∧
    lr = ⟨digitsVal ds, [a, b]⟩

-- ═══════════════════════════════════════════════════════════════════════════
-- Theorems
-- ═══════════════════════════════════════════════════════════════════════════

/-- C5: for every line number and every pair of content strings that are equal
after deleting all whitespace, `computeLineHash` returns the same code: the
hash is a deterministic total function of the line number and the
whitespace-stripped content. -/
theorem computeLineHash_whitespace_invariant (lineNumber : Nat) (c1 c2 : List Char)
    (h : normalizeLineContent c1 = normalizeLineContent c2) :
    computeLineHash lineNumber c1 = computeLineHash lineNumber c2 := by
  unfold computeLineHash
  rw [h]

/-- Witness for C5 at a concrete whitespace-perturbed pair. -/
theorem computeLineHash_whitespace_invariant_witness :
    normalizeLineContent "  const x = 1 ".toList = normalizeLineContent "const\tx=1".toList ∧
    computeLineHash 5 "  const x = 1 ".toList = computeLineHash 5 "const\tx=1".toList :=
  ⟨by decide, computeLineHash_whitespace_invariant 5 _ _ (by decide)⟩

/-- C6: for content whose whitespace-stripped form contains a letter or digit,
the seed is 0, so the hash is independent of the line number. -/
theorem computeLineHash_position_independent (L1 L2 : Nat) (c : List Char)
    (hsig : hasSignificantContent (normalizeLineContent c) = true) (_hne : L1 ≠ L2) :
    computeLineHash L1 c = computeLineHash L2 c := by
  unfold computeLineHash
  simp [hsig]

/-- Witness for C6 at concrete distinct lines, once with ASCII content and once
with content whose only letter is non-ASCII. -/
theorem computeLineHash_position_independent_witness :
    (hasSignificantContent (normalizeLineContent "const x = 1".toList) = true ∧
     (1 : Nat) ≠ 2 ∧
     computeLineHash 1 "const x = 1".toList = computeLineHash 2 "const x = 1".toList) ∧
    (hasSignificantContent (normalizeLineContent " ä ".toList) = true ∧
     (3 : Nat) ≠ 7 ∧
     computeLineHash 3 " ä ".toList = computeLineHash 7 " ä ".toList) :=
  ⟨⟨by decide, by decide, computeLineHash_position_independent 1 2 _ (by decide) (by decide)⟩,
   ⟨by decide, by decide, computeLineHash_position_independent 3 7 _ (by decide) (by decide)⟩⟩

lemma keepFirstByKeyAux_nil (fuel : Nat) : keepFirstByKeyAux fuel [] = [] := by
  cases fuel <;> rfl

lemma keepFirstByKeyAux_congr :
    ∀ fuel1 fuel2 (l : List HashlineEdit), l.length ≤ fuel1 → l.length ≤ fuel2 →
      keepFirstByKeyAux fuel1 l = keepFirstByKeyAux fuel2 l := by
  intro fuel1
  induction fuel1 with
  | zero =>
    intro fuel2 l h1 _
    have hl : l = [] := List.eq_nil_of_length_eq_zero (Nat.le_zero.mp h1)
    subst hl
    simp [keepFirstByKeyAux_nil]
  | succ f ih =>
    intro fuel2 l h1 h2
    cases l with
    | nil => simp [keepFirstByKeyAux_nil]
    | cons e rest =>
      cases fuel2 with
      | zero => simp at h2
      | succ f2 =>
        have h1' : rest.length ≤ f := by simp only [List.length_cons] at h1; omega
        have h2' : rest.length ≤ f2 := by simp only [List.length_cons] at h2; omega
        simp only [keepFirstByKeyAux]
        congr 1
        apply ih
        · exact le_trans (List.length_filter_le _ _) h1'
        · exact le_trans (List.length_filter_le _ _) h2'

lemma keepFirstByKey_cons (e : HashlineEdit) (rest : List HashlineEdit) :
    keepFirstByKey (e :: rest) =
      e :: keepFirstByKey (rest.filter fun x => buildDedupeKey x != buildDedupeKey e) := by
  unfold keepFirstByKey
  simp only [List.length_cons, keepFirstByKeyAux]
  congr 1
  apply keepFirstByKeyAux_congr
  · exact List.length_filter_le _ _
  · exact le_rfl

lemma dedupeEditsAux_edits :
    ∀ (l : List HashlineEdit) (seen : List (List Char)),
      (dedupeEditsAux seen l).edits =
        keepFirstByKey (l.filter fun e => decide (buildDedupeKey e ∉ seen)) := by
  intro l
  induction l with
  | nil => intro seen; rfl
  | cons e rest ih =>
    intro seen
    by_cases h : buildDedupeKey e ∈ seen
    · simp only [dedupeEditsAux, if_pos h]
      rw [ih]
      congr 1
      simp [List.filter_cons, h]
    · simp only [dedupeEditsAux, if_neg h]
      rw [ih (buildDedupeKey e :: seen)]
      have hcons : (e :: rest).filter (fun x => decide (buildDedupeKey x ∉ seen)) =
          e :: rest.filter (fun x => decide (buildDedupeKey x ∉ seen)) := by
        simp [List.filter_cons, h]
      rw [hcons, keepFirstByKey_cons]
      congr 2
      rw [List.filter_filter]
      apply List.filter_congr
      intro x _
      by_cases h1 : buildDedupeKey x = buildDedupeKey e <;>
        by_cases h2 : buildDedupeKey x ∈ seen <;>
        simp [h1, h2, List.mem_cons]

/-- C8: `dedupeEdits` keeps the first occurrence of each edit under the
canonical key and drops every later edit with the same key, counting it, so
that kept edits plus `duplicatesRemoved` equals the input length; in
particular an identical `set_line` edit submitted twice leaves one edit with
`duplicatesRemoved = 1`. -/
theorem dedupeEdits_first_occurrence_wins :
    (∀ edits, (dedupeEdits edits).edits.length + (dedupeEdits edits).duplicatesRemoved =
      edits.length) ∧
    (∀ edits, (dedupeEdits edits).edits = keepFirstByKey edits) ∧
    (∀ l t, dedupeEdits [HashlineEdit.setLine l t, HashlineEdit.setLine l t] =
      ⟨[HashlineEdit.setLine l t], 1⟩) := by
  refine ⟨?_, ?_, ?_⟩
  · intro edits
    suffices h : ∀ (l : List HashlineEdit) (seen : List (List Char)),
        (dedupeEditsAux seen l).edits.length + (dedupeEditsAux seen l).duplicatesRemoved =
          l.length from h edits []
    intro l
    induction l with
    | nil => intro seen; rfl
    | cons e rest ih =>
      intro seen
      by_cases h : buildDedupeKey e ∈ seen
      · simp only [dedupeEditsAux, if_pos h, List.length_cons]
        have hrec := ih seen
        omega
      · simp only [dedupeEditsAux, if_neg h, List.length_cons]
        have hrec := ih (buildDedupeKey e :: seen)
        omega
  · intro edits
    rw [dedupeEdits, dedupeEditsAux_edits]
    congr 1
    apply List.filter_eq_self.mpr
    intro a _
    simp
  · intro l t
    simp [dedupeEdits, dedupeEditsAux]

/-- C10: a `replace` edit and a `replace_lines` edit with identical anchors and
text build the same `replace|...` dedupe key, so the second of the pair is
dropped and counted even though the type tags differ. -/
theorem buildDedupeKey_replace_alias :
    (∀ s e t, buildDedupeKey (HashlineEdit.replaceLines s e t) =
      buildDedupeKey (HashlineEdit.replace s e t)) ∧
    (∀ s e t, dedupeEdits [HashlineEdit.replaceLines s e t, HashlineEdit.replace s e t] =
      ⟨[HashlineEdit.replaceLines s e t], 1⟩) := by
  constructor
  · intro s e t; rfl
  · intro s e t
    simp [dedupeEdits, dedupeEditsAux, buildDedupeKey]

lemma validateLineRefsAux_ok_iff (lines : List (List Char)) :
    ∀ (refs : List (List Char)) (acc : List HashlineMismatch),
      validateLineRefsAux lines acc refs = .ok () ↔ (acc = [] ∧ ∀ r ∈ refs, refOk lines r) := by
  intro refs
  induction refs with
  | nil =>
    intro acc
    constructor
    · intro h
      simp only [validateLineRefsAux] at h
      by_cases hacc : acc.isEmpty
      · exact ⟨List.isEmpty_iff.mp hacc, by simp⟩
      · simp [hacc] at h
    · rintro ⟨hacc, -⟩
      subst hacc
      rfl
  | cons r rest ih =>
    intro acc
    cases hp : parseLineRef r with
    | error err =>
      simp only [validateLineRefsAux, hp]
      constructor
      · intro h; exact absurd h (by simp)
      · rintro ⟨-, hall⟩
        obtain ⟨lr, hlr, -⟩ := hall r (by simp)
        rw [hp] at hlr
        exact absurd hlr (by simp)
    | ok lr =>
      simp only [validateLineRefsAux, hp]
      by_cases hb : lr.line < 1 ∨ lines.length < lr.line
      · rw [if_pos hb]
        constructor
        · intro h; exact absurd h (by simp)
        · rintro ⟨-, hall⟩
          obtain ⟨lr2, hlr2, h1, h2⟩ := hall r (by simp)
          rw [hp] at hlr2
          injection hlr2 with h12
          subst h12
          omega
      · rw [if_neg hb]
        by_cases hh : computeLineHash lr.line (lines.getD (lr.line - 1) []) ≠ lr.hash
        · rw [if_pos hh, ih]
          constructor
          · rintro ⟨habs, -⟩
            exact absurd habs (by simp)
          · rintro ⟨-, hall⟩
            obtain ⟨lr2, hlr2, -, -, hhash⟩ := hall r (by simp)
            rw [hp] at hlr2
            injection hlr2 with h12
            subst h12
            exact absurd hhash hh
        · rw [if_neg hh, ih]
          push_neg at hb hh
          constructor
          · rintro ⟨hacc, hrest⟩
            refine ⟨hacc, ?_⟩
            intro x hx
            rcases List.mem_cons.mp hx with hx | hx
            · subst hx
              exact ⟨lr, hp, by omega, by omega, hh⟩
            · exact hrest x hx
          · rintro ⟨hacc, hall⟩
            exact ⟨hacc, fun x hx => hall x (List.mem_cons_of_mem _ hx)⟩

lemma validateLineRefs_ok_iff (lines refs : List (List Char)) :
    validateLineRefs lines refs = .ok () ↔ ∀ r ∈ refs, refOk lines r := by
  rw [validateLineRefs, validateLineRefsAux_ok_iff]
  simp

lemma applyHashlineEdits_core (content : List Char) (edits : List HashlineEdit)
    (hne : edits ≠ []) :
    applyHashlineEdits content edits =
      (validateLineRefs (splitNL content) (collectLineRefs edits)).bind fun _ =>
        Except.map joinNL
          ((List.insertionSort (fun a b => editAnchor b ≤ editAnchor a) edits).foldlM
            applyEdit (splitNL content)) := by
  have hg : (if (collectLineRefs edits).isEmpty then (Except.ok () : Except HErr Unit)
      else validateLineRefs (splitNL content) (collectLineRefs edits)) =
      validateLineRefs (splitNL content) (collectLineRefs edits) := by
    by_cases hr : (collectLineRefs edits).isEmpty
    · rw [if_pos hr, List.isEmpty_iff.mp hr]
      rfl
    · rw [if_neg hr]
  simp only [applyHashlineEdits]
  rw [if_neg (show ¬(edits.isEmpty = true) by simpa using hne), hg]
  cases hv : validateLineRefs (splitNL content) (collectLineRefs edits) with
  | error err => rfl
  | ok u =>
    cases hf : (List.insertionSort (fun a b => editAnchor b ≤ editAnchor a) edits).foldlM
        applyEdit (splitNL content) with
    | error err => rfl
    | ok ls => rfl

/-- C7: a `replace_lines` edit with valid references and `start ≤ end` splices
the inclusive range `[start, end]` out of the buffer, substituting the
newline-split replacement (nothing at all when the replacement text is empty,
which deletes the range outright). -/
theorem applyHashlineEdits_replace_range (content s e t : List Char)
    (sl el : Nat) (sh eh : List Char)
    (hs : parseLineRef s = .ok ⟨sl, sh⟩) (he : parseLineRef e = .ok ⟨el, eh⟩)
    (hval : validateLineRefs (splitNL content) [s, e] = .ok ())
    (hrange : sl ≤ el) :
    applyHashlineEdits content [HashlineEdit.replaceLines s e t] =
      .ok (joinNL ((splitNL content).take (sl - 1) ++
        (if unescapeNewlines t = [] then [] else splitNL (unescapeNewlines t)) ++
        (splitNL content).drop el)) := by
  have hrefs : collectLineRefs [HashlineEdit.replaceLines s e t] = [s, e] := rfl
  have hsl1 : 1 ≤ sl := by
    obtain ⟨lr, hlr, h1, -, -⟩ := (validateLineRefs_ok_iff _ _).mp hval s (by simp)
    rw [hs] at hlr
    injection hlr with h12
    rw [← h12] at h1
    exact h1
  rw [applyHashlineEdits_core _ _ (by simp), hrefs, hval]
  have hsort : List.insertionSort (fun a b => editAnchor b ≤ editAnchor a)
      [HashlineEdit.replaceLines s e t] = [HashlineEdit.replaceLines s e t] := rfl
  simp only [Except.bind, hsort, List.foldlM]
  simp only [applyEdit, hs, he, bind, Except.bind]
  rw [if_neg (by omega)]
  simp only [spliceList, pure, Except.pure]
  have harith : sl - 1 + (el - sl + 1) = el := by omega
  rw [harith]
  by_cases ht : unescapeNewlines t = []
  · simp [ht, Except.map, List.isEmpty_iff]
  · simp [ht, Except.map, List.isEmpty_iff]

/-- Witness for C7: the spec example — a 5-line file, `replace_lines` over
lines 2..4 with text `X` yields a 3-line file whose middle line is `X`. -/
theorem applyHashlineEdits_replace_range_witness :
    applyHashlineEdits "line 1\nline 2\nline 3\nline 4\nline 5".toList
      [HashlineEdit.replaceLines (mkRef 2 "line 2".toList) (mkRef 4 "line 4".toList)
        "X".toList] = .ok "line 1\nX\nline 5".toList := by
  rw [applyHashlineEdits_replace_range _ _ _ _ 2 4
    (computeLineHash 2 "line 2".toList) (computeLineHash 4 "line 4".toList)
    (by decide) (by decide) (by decide) (by decide)]
  decide

lemma anchorsDistinct_of_perm {l1 l2 : List HashlineEdit} (hp : l1.Perm l2)
    (hd : anchorsDistinct l2) : anchorsDistinct l1 :=
  (hp.pairwise_iff fun h heq => h heq.symm).mpr hd

lemma sorted_strict_of_sorted_distinct {l : List HashlineEdit}
    (hs : l.Sorted fun a b => editAnchor b ≤ editAnchor a)
    (hd : anchorsDistinct l) :
    l.Sorted fun a b => editAnchor b < editAnchor a := by
  have hand := List.Pairwise.and hs hd
  exact hand.imp fun h => lt_of_le_of_ne h.1 fun heq => h.2 heq.symm

lemma insertionSort_eq_of_sorted_perm {l ds : List HashlineEdit}
    (hp : ds.Perm l) (hd : anchorsDistinct l)
    (hsorted : sortedByDescAnchor ds) :
    List.insertionSort (fun a b => editAnchor b ≤ editAnchor a) l = ds := by
  haveI : IsTotal HashlineEdit (fun a b => editAnchor b ≤ editAnchor a) :=
    ⟨fun a b => Nat.le_total (editAnchor b) (editAnchor a)⟩
  haveI : IsTrans HashlineEdit (fun a b => editAnchor b ≤ editAnchor a) :=
    ⟨fun _ _ _ hab hbc => le_trans hbc hab⟩
  haveI : IsAntisymm HashlineEdit (fun a b => editAnchor b < editAnchor a) :=
    ⟨fun _ _ h1 h2 => absurd (lt_trans h1 h2) (lt_irrefl _)⟩
  have hperm : (List.insertionSort (fun a b => editAnchor b ≤ editAnchor a) l).Perm ds :=
    (List.perm_insertionSort _ l).trans hp.symm
  have hds : anchorsDistinct (List.insertionSort (fun a b => editAnchor b ≤ editAnchor a) l) :=
    anchorsDistinct_of_perm (List.perm_insertionSort _ l) hd
  have hs1 : (List.insertionSort (fun a b => editAnchor b ≤ editAnchor a) l).Sorted
      fun a b => editAnchor b < editAnchor a :=
    sorted_strict_of_sorted_distinct (List.sorted_insertionSort _ l) hds
  exact List.eq_of_perm_of_sorted hperm hs1 hsorted

lemma collectLineRefs_perm {l1 l2 : List HashlineEdit} (hp : l1.Perm l2) :
    (collectLineRefs l1).Perm (collectLineRefs l2) :=
  hp.flatMap_right refsOfEdit

lemma validateLineRefs_ok_of_perm {lines refs1 refs2 : List (List Char)}
    (hp : refs1.Perm refs2) (h : validateLineRefs lines refs1 = .ok ()) :
    validateLineRefs lines refs2 = .ok () := by
  rw [validateLineRefs_ok_iff] at h ⊢
  exact fun r hr => h r (hp.mem_iff.mpr hr)

lemma applyEditsInOrder_core (content : List Char) (ds : List HashlineEdit)
    (hne : ds ≠ []) :
    applyEditsInOrder content ds =
      (validateLineRefs (splitNL content) (collectLineRefs ds)).bind fun _ =>
        Except.map joinNL (ds.foldlM applyEdit (splitNL content)) := by
  simp only [applyEditsInOrder]
  rw [if_neg (show ¬(ds.isEmpty = true) by simpa using hne)]
  cases hv : validateLineRefs (splitNL content) (collectLineRefs ds) with
  | error err => rfl
  | ok u =>
    cases hf : ds.foldlM applyEdit (splitNL content) with
    | error err => rfl
    | ok ls => rfl

/-- C2: for a validated batch whose per-variant anchors are pairwise distinct
and whose ranges do not overlap, `applyHashlineEdits` returns the same result
for every permutation of the batch, and that result equals applying the edits
one at a time in strictly decreasing anchor order. -/
theorem applyHashlineEdits_order_invariant (content : List Char)
    (edits edits2 ds : List HashlineEdit)
    (hperm : edits2.Perm edits) (hds : ds.Perm edits)
    (hdist : anchorsDistinct edits)
    (hval : validateLineRefs (splitNL content) (collectLineRefs edits) = .ok ())
    (_hdisj : rangesDisjoint edits)
    (hsorted : sortedByDescAnchor ds) :
    applyHashlineEdits content edits2 = applyHashlineEdits content edits ∧
    applyHashlineEdits content edits = applyEditsInOrder content ds := by
  by_cases hnil : edits = []
  · subst hnil
    have h2 : edits2 = [] := hperm.eq_nil
    have h3 : ds = [] := hds.eq_nil
    subst h2
    subst h3
    exact ⟨rfl, rfl⟩
  · have hne2 : edits2 ≠ [] := by
      intro h
      subst h
      exact hnil hperm.symm.eq_nil
    have hneds : ds ≠ [] := by
      intro h
      subst h
      exact hnil hds.symm.eq_nil
    have hval2 : validateLineRefs (splitNL content) (collectLineRefs edits2) = .ok () :=
      validateLineRefs_ok_of_perm (collectLineRefs_perm hperm).symm hval
    have hvalds : validateLineRefs (splitNL content) (collectLineRefs ds) = .ok () :=
      validateLineRefs_ok_of_perm (collectLineRefs_perm hds).symm hval
    have hsortEq : List.insertionSort (fun a b => editAnchor b ≤ editAnchor a) edits = ds :=
      insertionSort_eq_of_sorted_perm hds hdist hsorted
    have hsortEq2 : List.insertionSort (fun a b => editAnchor b ≤ editAnchor a) edits2 = ds := by
      apply insertionSort_eq_of_sorted_perm (hds.trans hperm.symm)
        (anchorsDistinct_of_perm hperm hdist) hsorted
    constructor
    · rw [applyHashlineEdits_core _ _ hne2, applyHashlineEdits_core _ _ hnil,
        hval, hval2, hsortEq, hsortEq2]
    · rw [applyHashlineEdits_core _ _ hnil, applyEditsInOrder_core _ _ hneds,
        hval, hvalds, hsortEq]

/-- Witness for C2: a concrete two-edit batch applied in submitted and reversed
order, against the explicit decreasing-anchor sequence. -/
theorem applyHashlineEdits_order_invariant_witness :
    applyHashlineEdits "line 1\nline 2\nline 3".toList
      [HashlineEdit.setLine (mkRef 3 "line 3".toList) "C".toList,
       HashlineEdit.setLine (mkRef 1 "line 1".toList) "A".toList] =
    applyHashlineEdits "line 1\nline 2\nline 3".toList
      [HashlineEdit.setLine (mkRef 1 "line 1".toList) "A".toList,
       HashlineEdit.setLine (mkRef 3 "line 3".toList) "C".toList] ∧
    applyHashlineEdits "line 1\nline 2\nline 3".toList
      [HashlineEdit.setLine (mkRef 1 "line 1".toList) "A".toList,
       HashlineEdit.setLine (mkRef 3 "line 3".toList) "C".toList] =
    applyEditsInOrder "line 1\nline 2\nline 3".toList
      [HashlineEdit.setLine (mkRef 3 "line 3".toList) "C".toList,
       HashlineEdit.setLine (mkRef 1 "line 1".toList) "A".toList] :=
  applyHashlineEdits_order_invariant "line 1\nline 2\nline 3".toList
    [HashlineEdit.setLine (mkRef 1 "line 1".toList) "A".toList,
     HashlineEdit.setLine (mkRef 3 "line 3".toList) "C".toList]
    [HashlineEdit.setLine (mkRef 3 "line 3".toList) "C".toList,
     HashlineEdit.setLine (mkRef 1 "line 1".toList) "A".toList]
    [HashlineEdit.setLine (mkRef 3 "line 3".toList) "C".toList,
     HashlineEdit.setLine (mkRef 1 "line 1".toList) "A".toList]
    (by decide) (by decide) (by decide) (by decide) (by decide) (by decide)

lemma validateLineRefsAux_mismatch (lines : List (List Char)) :
    ∀ (refs : List (List Char)) (acc : List HashlineMismatch),
      (∀ r ∈ refs, refParsesInBounds lines r) →
      (acc ≠ [] ∨ ∃ r ∈ refs, mismatchOf lines r ≠ none) →
      validateLineRefsAux lines acc refs =
        .error (.hashMismatch (acc ++ refs.filterMap (mismatchOf lines))) := by
  intro refs
  induction refs with
  | nil =>
    intro acc _ hex
    rcases hex with hacc | ⟨r, hr, -⟩
    · simp only [validateLineRefsAux, List.filterMap_nil, List.append_nil]
      rw [if_neg (by simpa using hacc)]
    · exact absurd hr (List.not_mem_nil r)
  | cons r rest ih =>
    intro acc hpb hex
    obtain ⟨lr, hp, h1, h2⟩ := hpb r (by simp)
    simp only [validateLineRefsAux, hp]
    rw [if_neg (by omega)]
    by_cases hh : computeLineHash lr.line (lines.getD (lr.line - 1) []) ≠ lr.hash
    · rw [if_pos hh]
      rw [ih _ (fun x hx => hpb x (List.mem_cons_of_mem _ hx)) (Or.inl (by simp))]
      have hm : mismatchOf lines r = some ⟨r, lr.line, lr.hash,
          computeLineHash lr.line (lines.getD (lr.line - 1) []),
          lines.getD (lr.line - 1) []⟩ := by
        simp only [mismatchOf, hp, if_pos hh]
      rw [List.filterMap_cons, hm]
      simp
    · rw [if_neg hh]
      have hm : mismatchOf lines r = none := by
        simp only [mismatchOf, hp]
        rw [if_neg hh]
      have hex2 : acc ≠ [] ∨ ∃ x ∈ rest, mismatchOf lines x ≠ none := by
        rcases hex with h | ⟨x, hx, hmx⟩
        · exact Or.inl h
        · rcases List.mem_cons.mp hx with heq | hx2
          · subst heq
            exact absurd hm hmx
          · exact Or.inr ⟨x, hx2, hmx⟩
      rw [ih _ (fun x hx => hpb x (List.mem_cons_of_mem _ hx)) hex2]
      rw [List.filterMap_cons, hm]

lemma validateLineRefsAux_oob (lines : List (List Char)) :
    ∀ (pre : List (List Char)) (acc : List HashlineMismatch) (r : List Char)
      (post : List (List Char)) (lr : LineRef),
      (∀ x ∈ pre, refParsesInBounds lines x) →
      parseLineRef r = .ok lr → (lr.line < 1 ∨ lines.length < lr.line) →
      validateLineRefsAux lines acc (pre ++ r :: post) =
        .error (.outOfBounds lr.line lines.length) := by
  intro pre
  induction pre with
  | nil =>
    intro acc r post lr _ hp hb
    simp only [List.nil_append, validateLineRefsAux, hp]
    rw [if_pos hb]
  | cons x pre ih =>
    intro acc r post lr hpb hp hb
    obtain ⟨lrx, hpx, h1, h2⟩ := hpb x (by simp)
    simp only [List.cons_append, validateLineRefsAux, hpx]
    rw [if_neg (by omega)]
    by_cases hh : computeLineHash lrx.line (lines.getD (lrx.line - 1) []) ≠ lrx.hash
    · rw [if_pos hh]
      exact ih _ _ _ _ (fun y hy => hpb y (List.mem_cons_of_mem _ hy)) hp hb
    · rw [if_neg hh]
      exact ih _ _ _ _ (fun y hy => hpb y (List.mem_cons_of_mem _ hy)) hp hb

/-- C3: when every submitted reference parses and is within bounds and at least
one hash disagrees with the recomputed hash, batch validation fails with a
single `HashMismatch` error whose report lists exactly the offending
references, each carrying the recomputed (corrected) hash and the literal
current line content; an out-of-range reference instead fails immediately and
individually with an `OutOfBounds` error, regardless of what follows it. -/
theorem validateLineRefs_batches_mismatches (lines : List (List Char)) :
    (∀ refs, (∀ r ∈ refs, refParsesInBounds lines r) →
      (∃ r ∈ refs, mismatchOf lines r ≠ none) →
      validateLineRefs lines refs =
        .error (.hashMismatch (refs.filterMap (mismatchOf lines)))) ∧
    (∀ pre r post lr, (∀ x ∈ pre, refParsesInBounds lines x) →
      parseLineRef r = .ok lr → (lr.line < 1 ∨ lines.length < lr.line) →
      validateLineRefs lines (pre ++ r :: post) =
        .error (.outOfBounds lr.line lines.length)) := by
  constructor
  · intro refs hall hex
    rw [validateLineRefs, validateLineRefsAux_mismatch lines refs [] hall (Or.inr hex)]
    simp
  · intro pre r post lr hall hp hb
    exact validateLineRefsAux_oob lines pre [] r post lr hall hp hb

/-- Witness for C3: two stale references batched into one report, and an
out-of-range reference failing individually. -/
theorem validateLineRefs_batches_mismatches_witness :
    validateLineRefs ["hello".toList, "world".toList]
      [natChars 1 ++ '#' :: computeLineHash 1 "HELLO changed".toList,
       natChars 2 ++ '#' :: computeLineHash 2 "WORLD changed".toList] =
      .error (.hashMismatch
        ([natChars 1 ++ '#' :: computeLineHash 1 "HELLO changed".toList,
          natChars 2 ++ '#' :: computeLineHash 2 "WORLD changed".toList].filterMap
          (mismatchOf ["hello".toList, "world".toList]))) ∧
    validateLineRefs ["hello".toList, "world".toList]
      ([mkRef 1 "hello".toList] ++
        (natChars 9 ++ '#' :: computeLineHash 9 "x".toList) :: []) =
      .error (.outOfBounds 9 ["hello".toList, "world".toList].length) := by
  constructor
  · apply (validateLineRefs_batches_mismatches _).1
    · intro r hr
      rcases List.mem_cons.mp hr with heq | hr2
      · subst heq
        exact ⟨⟨1, computeLineHash 1 "HELLO changed".toList⟩, by decide, by decide, by decide⟩
      · rcases List.mem_cons.mp hr2 with heq | h3
        · subst heq
          exact ⟨⟨2, computeLineHash 2 "WORLD changed".toList⟩, by decide, by decide, by decide⟩
        · exact absurd h3 (List.not_mem_nil _)
    · exact ⟨natChars 1 ++ '#' :: computeLineHash 1 "HELLO changed".toList,
        List.mem_cons_self _ _, by decide⟩
  · apply (validateLineRefs_batches_mismatches _).2 [mkRef 1 "hello".toList] _ []
      ⟨9, computeLineHash 9 "x".toList⟩
    · intro x hx
      rcases List.mem_cons.mp hx with heq | h3
      · subst heq
        exact ⟨⟨1, computeLineHash 1 "hello".toList⟩, by decide, by decide, by decide⟩
      · exact absurd h3 (List.not_mem_nil _)
    · decide
    · decide

lemma pairConflict_char {a b : HashlineEdit} {k : HErr} (h : pairConflict a b = some k) :
    editsConflictAt a b ∧
      k = (if isPointEdit a || isPointEdit b then HErr.conflictingEdits
        else HErr.overlappingEdits) := by
  unfold pairConflict at h
  cases hra : rangeOfEdit a with
  | none => rw [hra] at h; exact absurd h (by simp)
  | some r1 =>
    cases hrb : rangeOfEdit b with
    | none => rw [hra, hrb] at h; exact absurd h (by simp)
    | some r2 =>
      rw [hra, hrb] at h
      have h2 : (if rangesIntersectB r1 r2 = true then
          some (if (isPointEdit a || isPointEdit b) = true then HErr.conflictingEdits
            else HErr.overlappingEdits)
          else none) = some k := h
      by_cases hint : rangesIntersectB r1 r2 = true
      · rw [if_pos hint] at h2
        injection h2 with hk
        exact ⟨⟨r1, r2, hra, hrb, hint⟩, hk.symm⟩
      · rw [if_neg hint] at h2
        exact absurd h2 (by simp)

lemma pairConflict_of_conflictAt {a b : HashlineEdit} (h : editsConflictAt a b) :
    pairConflict a b =
      some (if isPointEdit a || isPointEdit b then HErr.conflictingEdits
        else HErr.overlappingEdits) := by
  obtain ⟨r1, r2, h1, h2, hint⟩ := h
  unfold pairConflict
  rw [h1, h2]
  show (if rangesIntersectB r1 r2 = true then
      some (if (isPointEdit a || isPointEdit b) = true then HErr.conflictingEdits
        else HErr.overlappingEdits)
      else none) = _
  rw [if_pos hint]

lemma firstConflictWith_isSome {a b : HashlineEdit} :
    ∀ {l : List HashlineEdit}, b ∈ l → editsConflictAt a b →
      ∃ k, firstConflictWith a l = some k := by
  intro l
  induction l with
  | nil => intro hb; exact absurd hb (List.not_mem_nil b)
  | cons c rest ih =>
    intro hb hc
    cases hpc : pairConflict a c with
    | some k => exact ⟨k, by simp [firstConflictWith, hpc]⟩
    | none =>
      rcases List.mem_cons.mp hb with heq | hb2
      · subst heq
        rw [pairConflict_of_conflictAt hc] at hpc
        exact absurd hpc (by simp)
      · obtain ⟨k, hk⟩ := ih hb2 hc
        exact ⟨k, by simp [firstConflictWith, hpc, hk]⟩

lemma firstConflictWith_sound {a : HashlineEdit} :
    ∀ {l : List HashlineEdit} {k : HErr}, firstConflictWith a l = some k →
      ∃ l2 b l3, l = l2 ++ b :: l3 ∧ pairConflict a b = some k := by
  intro l
  induction l with
  | nil => intro k h; exact absurd h (by simp [firstConflictWith])
  | cons c rest ih =>
    intro k h
    simp only [firstConflictWith] at h
    cases hpc : pairConflict a c with
    | some k0 =>
      rw [hpc] at h
      injection h with hk
      exact ⟨[], c, rest, rfl, by rw [hpc, hk]⟩
    | none =>
      rw [hpc] at h
      obtain ⟨l2, b, l3, heq, hb⟩ := ih h
      exact ⟨c :: l2, b, l3, by rw [heq]; rfl, hb⟩

lemma detectOverlappingRanges_isSome :
    ∀ {l1 : List HashlineEdit} {a : HashlineEdit} {l2 : List HashlineEdit}
      {b : HashlineEdit} {l3 : List HashlineEdit}, editsConflictAt a b →
      ∃ k, detectOverlappingRanges (l1 ++ a :: l2 ++ b :: l3) = some k := by
  intro l1
  induction l1 with
  | nil =>
    intro a l2 b l3 hc
    obtain ⟨k, hk⟩ := @firstConflictWith_isSome a b (l2 ++ b :: l3) (by simp) hc
    refine ⟨k, ?_⟩
    show (match firstConflictWith a (l2 ++ b :: l3) with
      | some e => some e
      | none => detectOverlappingRanges (l2 ++ b :: l3)) = some k
    rw [hk]
  | cons c l1 ih =>
    intro a l2 b l3 hc
    cases hfc : firstConflictWith c (l1 ++ a :: l2 ++ b :: l3) with
    | some k =>
      refine ⟨k, ?_⟩
      show (match firstConflictWith c (l1 ++ a :: l2 ++ b :: l3) with
        | some e => some e
        | none => detectOverlappingRanges (l1 ++ a :: l2 ++ b :: l3)) = some k
      rw [hfc]
    | none =>
      obtain ⟨k, hk⟩ := @ih a l2 b l3 hc
      refine ⟨k, ?_⟩
      show (match firstConflictWith c (l1 ++ a :: l2 ++ b :: l3) with
        | some e => some e
        | none => detectOverlappingRanges (l1 ++ a :: l2 ++ b :: l3)) = some k
      rw [hfc]
      exact hk

lemma detectOverlappingRanges_sound :
    ∀ {l : List HashlineEdit} {k : HErr}, detectOverlappingRanges l = some k →
      ∃ l1 a l2 b l3, l = l1 ++ a :: l2 ++ b :: l3 ∧ pairConflict a b = some k := by
  intro l
  induction l with
  | nil => intro k h; exact absurd h (by simp [detectOverlappingRanges])
  | cons c rest ih =>
    intro k h
    simp only [detectOverlappingRanges] at h
    cases hfc : firstConflictWith c rest with
    | some k0 =>
      rw [hfc] at h
      injection h with hk
      obtain ⟨l2, b, l3, heq, hb⟩ := firstConflictWith_sound (hfc.trans (by rw [hk]))
      exact ⟨[], c, l2, b, l3, by rw [heq]; rfl, hb⟩
    | none =>
      rw [hfc] at h
      obtain ⟨l1, a, l2, b, l3, heq, hb⟩ := ih h
      exact ⟨c :: l1, a, l2, b, l3, by rw [heq]; rfl, hb⟩

lemma applyHashlineEditsChecked_core (content : List Char) (edits : List HashlineEdit)
    (hne : edits ≠ []) :
    applyHashlineEditsChecked content edits =
      (validateLineRefs (splitNL content) (collectLineRefs edits)).bind fun _ =>
        match detectOverlappingRanges edits with
        | some e => .error e
        | none =>
          Except.map joinNL
            ((List.insertionSort (fun a b => editAnchor b ≤ editAnchor a) edits).foldlM
              applyEdit (splitNL content)) := by
  have hg : (if (collectLineRefs edits).isEmpty then (Except.ok () : Except HErr Unit)
      else validateLineRefs (splitNL content) (collectLineRefs edits)) =
      validateLineRefs (splitNL content) (collectLineRefs edits) := by
    by_cases hr : (collectLineRefs edits).isEmpty
    · rw [if_pos hr, List.isEmpty_iff.mp hr]
      rfl
    · rw [if_neg hr]
  simp only [applyHashlineEditsChecked]
  rw [if_neg (show ¬(edits.isEmpty = true) by simpa using hne), hg]
  cases hv : validateLineRefs (splitNL content) (collectLineRefs edits) with
  | error err => rfl
  | ok u =>
    cases hd : detectOverlappingRanges edits with
    | some e => rfl
    | none =>
      cases hf : (List.insertionSort (fun a b => editAnchor b ≤ editAnchor a) edits).foldlM
          applyEdit (splitNL content) with
      | error err => rfl
      | ok ls => rfl

/-- C1: when a validated batch contains two range-consuming edits whose
inclusive ranges intersect (a set_line counting as a degenerate one-line
range), the checked application fails with an `OverlappingEdits` or
`ConflictingEdits` error — `OverlappingEdits` when every conflicting pair is
range-against-range, `ConflictingEdits` when every conflicting pair involves a
point edit falling inside another edit's range — and, the failure being an
`Except.error`, no new content is produced. -/
theorem applyHashlineEditsChecked_conflict_fails (content : List Char)
    (edits : List HashlineEdit)
    (hval : validateLineRefs (splitNL content) (collectLineRefs edits) = .ok ())
    (hpair : ∃ l1 a l2 b l3, edits = l1 ++ a :: l2 ++ b :: l3 ∧ editsConflictAt a b) :
    ∃ k, applyHashlineEditsChecked content edits = .error k ∧
      (k = .overlappingEdits ∨ k = .conflictingEdits) ∧
      ((∀ l1 a l2 b l3, edits = l1 ++ a :: l2 ++ b :: l3 → editsConflictAt a b →
        isPointEdit a = false ∧ isPointEdit b = false) → k = .overlappingEdits) ∧
      ((∀ l1 a l2 b l3, edits = l1 ++ a :: l2 ++ b :: l3 → editsConflictAt a b →
        isPointEdit a = true ∨ isPointEdit b = true) → k = .conflictingEdits) := by
  obtain ⟨l1, a, l2, b, l3, heq, hc⟩ := hpair
  have hne : edits ≠ [] := by
    rw [heq]
    intro h
    exact absurd h (by simp)
  obtain ⟨k, hk⟩ := @detectOverlappingRanges_isSome l1 a l2 b l3 hc
  have hk2 : detectOverlappingRanges edits = some k := by rw [heq]; exact hk
  refine ⟨k, ?_, ?_, ?_, ?_⟩
  · rw [applyHashlineEditsChecked_core _ _ hne, hval, hk2]
    rfl
  · obtain ⟨m1, x, m2, y, m3, -, hxy⟩ := detectOverlappingRanges_sound hk2
    obtain ⟨-, hkval⟩ := pairConflict_char hxy
    by_cases hpt : isPointEdit x || isPointEdit y
    · rw [hkval, if_pos hpt]
      exact Or.inr rfl
    · rw [hkval, if_neg hpt]
      exact Or.inl rfl
  · intro hall
    obtain ⟨m1, x, m2, y, m3, hmeq, hxy⟩ := detectOverlappingRanges_sound hk2
    obtain ⟨hcxy, hkval⟩ := pairConflict_char hxy
    obtain ⟨hx, hy⟩ := hall m1 x m2 y m3 hmeq hcxy
    rw [hkval, hx, hy]
    rfl
  · intro hall
    obtain ⟨m1, x, m2, y, m3, hmeq, hxy⟩ := detectOverlappingRanges_sound hk2
    obtain ⟨hcxy, hkval⟩ := pairConflict_char hxy
    have hpt := hall m1 x m2 y m3 hmeq hcxy
    rw [hkval, if_pos (by rcases hpt with h | h <;> simp [h])]

/-- Witness for C1: the spec example — a batch with overlapping ranges `[1,3]`
and `[2,4]` on a five-line file fails. -/
theorem applyHashlineEditsChecked_conflict_fails_witness :
    ∃ k, applyHashlineEditsChecked "line 1\nline 2\nline 3\nline 4\nline 5".toList
      [HashlineEdit.replaceLines (mkRef 1 "line 1".toList) (mkRef 3 "line 3".toList)
        "A".toList,
       HashlineEdit.replace (mkRef 2 "line 2".toList) (mkRef 4 "line 4".toList)
        "B".toList] = .error k ∧
      (k = .overlappingEdits ∨ k = .conflictingEdits) ∧
      ((∀ l1 a l2 b l3,
        [HashlineEdit.replaceLines (mkRef 1 "line 1".toList) (mkRef 3 "line 3".toList)
          "A".toList,
         HashlineEdit.replace (mkRef 2 "line 2".toList) (mkRef 4 "line 4".toList)
          "B".toList] = l1 ++ a :: l2 ++ b :: l3 → editsConflictAt a b →
        isPointEdit a = false ∧ isPointEdit b = false) → k = .overlappingEdits) ∧
      ((∀ l1 a l2 b l3,
        [HashlineEdit.replaceLines (mkRef 1 "line 1".toList) (mkRef 3 "line 3".toList)
          "A".toList,
         HashlineEdit.replace (mkRef 2 "line 2".toList) (mkRef 4 "line 4".toList)
          "B".toList] = l1 ++ a :: l2 ++ b :: l3 → editsConflictAt a b →
        isPointEdit a = true ∨ isPointEdit b = true) → k = .conflictingEdits) :=
  applyHashlineEditsChecked_conflict_fails _ _ (by decide)
    ⟨[], _, [], _, [], rfl, ⟨(1, 3), (2, 4), by decide, by decide, by decide⟩⟩

lemma natCharsAux_mem :
    ∀ (fuel n : Nat) (c : Char), c ∈ natCharsAux fuel n → ∃ m, m < 10 ∧ c = digitChar m := by
  intro fuel
  induction fuel with
  | zero => intro n c hc; exact absurd hc (List.not_mem_nil c)
  | succ f ih =>
    intro n c hc
    by_cases h : n < 10
    · simp only [natCharsAux, if_pos h, List.mem_singleton] at hc
      exact ⟨n, h, hc⟩
    · simp only [natCharsAux, if_neg h, List.mem_append, List.mem_singleton] at hc
      rcases hc with hc | hc
      · exact ih _ _ hc
      · exact ⟨n % 10, Nat.mod_lt _ (by norm_num), hc⟩

lemma digitChar_class : ∀ m, m < 10 →
    (digitChar m).isDigit = true ∧ isJsWhitespace (digitChar m) = false ∧
    digitChar m ≠ '>' ∧ (digitChar m).toNat = 48 + m := by
  intro m hm
  interval_cases m <;> exact ⟨by decide, by decide, by decide, by decide⟩

lemma natChars_ne_nil (n : Nat) : natChars n ≠ [] := by
  unfold natChars natCharsAux
  by_cases h : n < 10 <;> simp [h]

lemma natChars_all_digit (n : Nat) : ∀ c ∈ natChars n, c.isDigit = true := by
  intro c hc
  obtain ⟨m, hm, heq⟩ := natCharsAux_mem _ _ _ hc
  subst heq
  exact (digitChar_class m hm).1

lemma natChars_cons (L : Nat) :
    ∃ c cs, natChars L = c :: cs ∧ isJsWhitespace c = false ∧ c ≠ '>' ∧
      c.isDigit = true := by
  obtain ⟨c, cs, h⟩ : ∃ c cs, natChars L = c :: cs := by
    cases h : natChars L with
    | nil => exact absurd h (natChars_ne_nil L)
    | cons c cs => exact ⟨c, cs, rfl⟩
  have hc : c ∈ natChars L := by rw [h]; simp
  obtain ⟨m, hm, heq⟩ := natCharsAux_mem _ _ _ hc
  subst heq
  obtain ⟨h1, h2, h3, -⟩ := digitChar_class m hm
  exact ⟨digitChar m, cs, h, h2, h3, h1⟩

lemma digitsVal_append (xs : List Char) (c : Char) :
    digitsVal (xs ++ [c]) = 10 * digitsVal xs + (c.toNat - 48) := by
  simp [digitsVal, List.foldl_append]

lemma digitsVal_natCharsAux : ∀ (fuel n : Nat), n < fuel →
    digitsVal (natCharsAux fuel n) = n := by
  intro fuel
  induction fuel with
  | zero => intro n h; omega
  | succ f ih =>
    intro n h
    by_cases h10 : n < 10
    · simp only [natCharsAux, if_pos h10]
      have hv := (digitChar_class n h10).2.2.2
      simp only [digitsVal, List.foldl_cons, List.foldl_nil, hv]
      omega
    · simp only [natCharsAux, if_neg h10]
      rw [digitsVal_append, ih (n / 10) (by omega)]
      have := (digitChar_class (n % 10) (Nat.mod_lt _ (by norm_num))).2.2.2
      rw [this]
      omega

lemma digitsVal_natChars (n : Nat) : digitsVal (natChars n) = n :=
  digitsVal_natCharsAux _ _ (Nat.lt_succ_self n)

lemma takeWhile_append_all {α : Type} {p : α → Bool} {l1 : List α} (l2 : List α)
    (h : ∀ c ∈ l1, p c = true) :
    (l1 ++ l2).takeWhile p = l1 ++ l2.takeWhile p := by
  induction l1 with
  | nil => simp
  | cons c t ih =>
    rw [List.cons_append, List.takeWhile_cons_of_pos (h c (by simp)), List.cons_append,
      ih fun x hx => h x (List.mem_cons_of_mem _ hx)]

lemma dropWhile_append_all {α : Type} {p : α → Bool} {l1 : List α} (l2 : List α)
    (h : ∀ c ∈ l1, p c = true) :
    (l1 ++ l2).dropWhile p = l2.dropWhile p := by
  induction l1 with
  | nil => simp
  | cons c t ih =>
    rw [List.cons_append, List.dropWhile_cons_of_pos (h c (by simp)),
      ih fun x hx => h x (List.mem_cons_of_mem _ hx)]

lemma stripCopyMarker_cons_ne {c : Char} (t : List Char) (h : c ≠ '>') :
    stripCopyMarker (c :: t) = c :: t := by
  unfold stripCopyMarker
  rw [if_neg (by simp [List.take_succ_cons, h]), if_neg (by simp [List.take_succ_cons, h])]

lemma dropWS_natChars_append (L : Nat) (X : List Char) :
    dropWS (natChars L ++ X) = natChars L ++ X := by
  obtain ⟨c, cs, h, hws, -, -⟩ := natChars_cons L
  rw [h]
  exact List.dropWhile_cons_of_neg (by simp [hws])

lemma stripCopyMarker_natChars_append (L : Nat) (X : List Char) :
    stripCopyMarker (natChars L ++ X) = natChars L ++ X := by
  obtain ⟨c, cs, h, -, hgt, -⟩ := natChars_cons L
  rw [h]
  exact stripCopyMarker_cons_ne _ hgt

lemma takeWhile_digit_natChars (L : Nat) (x : Char) (Y : List Char)
    (hx : x.isDigit = false) :
    ((natChars L ++ x :: Y).takeWhile Char.isDigit) = natChars L := by
  rw [takeWhile_append_all _ (natChars_all_digit L),
    List.takeWhile_cons_of_neg (by simp [hx]), List.append_nil]

lemma dropWhile_digit_natChars (L : Nat) (x : Char) (Y : List Char)
    (hx : x.isDigit = false) :
    ((natChars L ++ x :: Y).dropWhile Char.isDigit) = x :: Y := by
  rw [dropWhile_append_all _ (natChars_all_digit L),
    List.dropWhile_cons_of_neg (by simp [hx])]

lemma alphabet_class : ∀ c ∈ hashlineAlphabet,
    isJsWhitespace c = false ∧ c.isDigit = false ∧ c ≠ ':' := by decide

lemma natChars_isEmpty (L : Nat) : (natChars L).isEmpty = false := by
  obtain ⟨c, cs, h, -, -, -⟩ := natChars_cons L
  rw [h]
  rfl

lemma parseTol_bare (L : Nat) (a b : Char) (ha : a ∈ hashlineAlphabet)
    (hb : b ∈ hashlineAlphabet) :
    parseLineRefTolerant (natChars L ++ '#' :: [a, b]) = .ok ⟨L, [a, b]⟩ := by
  have e1 : dropWS (natChars L ++ '#' :: [a, b]) = natChars L ++ '#' :: [a, b] :=
    dropWS_natChars_append L _
  have e2 : stripCopyMarker (natChars L ++ '#' :: [a, b]) = natChars L ++ '#' :: [a, b] :=
    stripCopyMarker_natChars_append L _
  have e3 : (natChars L ++ '#' :: [a, b]).takeWhile Char.isDigit = natChars L :=
    takeWhile_digit_natChars L '#' [a, b] (by decide)
  have e4 : (natChars L ++ '#' :: [a, b]).dropWhile Char.isDigit = '#' :: [a, b] :=
    dropWhile_digit_natChars L '#' [a, b] (by decide)
  have e5 : dropWS ('#' :: [a, b]) = '#' :: [a, b] :=
    List.dropWhile_cons_of_neg (by decide)
  have e6 : dropWS [a, b] = [a, b] :=
    List.dropWhile_cons_of_neg (by simp [(alphabet_class a ha).1])
  simp only [parseLineRefTolerant, e1, e2, e3, e4, e5, e6, natChars_isEmpty]
  rw [if_neg (by simp)]
  rw [if_pos ⟨ha, hb⟩]
  simp [digitsVal_natChars]

lemma parseTol_marker (L : Nat) (a b : Char) (ha : a ∈ hashlineAlphabet)
    (hb : b ∈ hashlineAlphabet) :
    parseLineRefTolerant ('>' :: '>' :: '>' :: ' ' :: (natChars L ++ '#' :: [a, b])) =
      .ok ⟨L, [a, b]⟩ := by
  have e0 : dropWS ('>' :: '>' :: '>' :: ' ' :: (natChars L ++ '#' :: [a, b])) =
      '>' :: '>' :: '>' :: ' ' :: (natChars L ++ '#' :: [a, b]) :=
    List.dropWhile_cons_of_neg (by decide)
  have em : stripCopyMarker ('>' :: '>' :: '>' :: ' ' :: (natChars L ++ '#' :: [a, b])) =
      ' ' :: (natChars L ++ '#' :: [a, b]) := by
    unfold stripCopyMarker
    rw [if_pos (by simp [List.take_succ_cons])]
    simp [List.drop]
  have es : dropWS (' ' :: (natChars L ++ '#' :: [a, b])) = natChars L ++ '#' :: [a, b] := by
    unfold dropWS
    rw [List.dropWhile_cons_of_pos (by decide)]
    exact dropWS_natChars_append L _
  have e3 : (natChars L ++ '#' :: [a, b]).takeWhile Char.isDigit = natChars L :=
    takeWhile_digit_natChars L '#' [a, b] (by decide)
  have e4 : (natChars L ++ '#' :: [a, b]).dropWhile Char.isDigit = '#' :: [a, b] :=
    dropWhile_digit_natChars L '#' [a, b] (by decide)
  have e5 : dropWS ('#' :: [a, b]) = '#' :: [a, b] :=
    List.dropWhile_cons_of_neg (by decide)
  have e6 : dropWS [a, b] = [a, b] :=
    List.dropWhile_cons_of_neg (by simp [(alphabet_class a ha).1])
  simp only [parseLineRefTolerant, e0, em, es, e3, e4, e5, e6, natChars_isEmpty]
  rw [if_neg (by simp)]
  rw [if_pos ⟨ha, hb⟩]
  simp [digitsVal_natChars]

lemma parseTol_spaces (L : Nat) (a b : Char) (ha : a ∈ hashlineAlphabet)
    (hb : b ∈ hashlineAlphabet) :
    parseLineRefTolerant (natChars L ++ ' ' :: '#' :: ' ' :: [a, b]) = .ok ⟨L, [a, b]⟩ := by
  have e1 : dropWS (natChars L ++ ' ' :: '#' :: ' ' :: [a, b]) =
      natChars L ++ ' ' :: '#' :: ' ' :: [a, b] := dropWS_natChars_append L _
  have e2 : stripCopyMarker (natChars L ++ ' ' :: '#' :: ' ' :: [a, b]) =
      natChars L ++ ' ' :: '#' :: ' ' :: [a, b] := stripCopyMarker_natChars_append L _
  have e3 : (natChars L ++ ' ' :: '#' :: ' ' :: [a, b]).takeWhile Char.isDigit = natChars L :=
    takeWhile_digit_natChars L ' ' _ (by decide)
  have e4 : (natChars L ++ ' ' :: '#' :: ' ' :: [a, b]).dropWhile Char.isDigit =
      ' ' :: '#' :: ' ' :: [a, b] := dropWhile_digit_natChars L ' ' _ (by decide)
  have e5 : dropWS (' ' :: '#' :: ' ' :: [a, b]) = '#' :: ' ' :: [a, b] := by
    unfold dropWS
    rw [List.dropWhile_cons_of_pos (by decide)]
    exact List.dropWhile_cons_of_neg (by decide)
  have e6 : dropWS (' ' :: [a, b]) = [a, b] := by
    unfold dropWS
    rw [List.dropWhile_cons_of_pos (by decide)]
    exact List.dropWhile_cons_of_neg (by simp [(alphabet_class a ha).1])
  simp only [parseLineRefTolerant, e1, e2, e3, e4, e5, e6, natChars_isEmpty]
  rw [if_neg (by simp)]
  rw [if_pos ⟨ha, hb⟩]
  simp [digitsVal_natChars]

lemma parseTol_suffix (L : Nat) (a b : Char) (suffix : List Char)
    (ha : a ∈ hashlineAlphabet) (hb : b ∈ hashlineAlphabet) :
    parseLineRefTolerant (natChars L ++ '#' :: a :: b :: ':' :: suffix) =
      .ok ⟨L, [a, b]⟩ := by
  have e1 : dropWS (natChars L ++ '#' :: a :: b :: ':' :: suffix) =
      natChars L ++ '#' :: a :: b :: ':' :: suffix := dropWS_natChars_append L _
  have e2 : stripCopyMarker (natChars L ++ '#' :: a :: b :: ':' :: suffix) =
      natChars L ++ '#' :: a :: b :: ':' :: suffix := stripCopyMarker_natChars_append L _
  have e3 : (natChars L ++ '#' :: a :: b :: ':' :: suffix).takeWhile Char.isDigit =
      natChars L := takeWhile_digit_natChars L '#' _ (by decide)
  have e4 : (natChars L ++ '#' :: a :: b :: ':' :: suffix).dropWhile Char.isDigit =
      '#' :: a :: b :: ':' :: suffix := dropWhile_digit_natChars L '#' _ (by decide)
  have e5 : dropWS ('#' :: a :: b :: ':' :: suffix) = '#' :: a :: b :: ':' :: suffix :=
    List.dropWhile_cons_of_neg (by decide)
  have e6 : dropWS (a :: b :: ':' :: suffix) = a :: b :: ':' :: suffix :=
    List.dropWhile_cons_of_neg (by simp [(alphabet_class a ha).1])
  simp only [parseLineRefTolerant, e1, e2, e3, e4, e5, e6, natChars_isEmpty]
  rw [if_neg (by simp)]
  rw [if_pos ⟨ha, hb⟩]
  simp [digitsVal_natChars]

lemma parseLineRefTolerant_sound (s : List Char) (lr : LineRef)
    (h : parseLineRefTolerant s = .ok lr) : refPatternAt s lr := by
  obtain ⟨mark, hmark, hsplit⟩ :
      ∃ mark, (mark = ['>', '>', '>'] ∨ mark = ['>', '>'] ∨ mark = []) ∧
        s.dropWhile isJsWhitespace =
          mark ++ stripCopyMarker (s.dropWhile isJsWhitespace) := by
    unfold stripCopyMarker
    by_cases h3 : (s.dropWhile isJsWhitespace).take 3 = ['>', '>', '>']
    · refine ⟨['>', '>', '>'], Or.inl rfl, ?_⟩
      rw [if_pos h3, ← h3]
      exact (List.take_append_drop 3 _).symm
    · by_cases h2 : (s.dropWhile isJsWhitespace).take 2 = ['>', '>']
      · refine ⟨['>', '>'], Or.inr (Or.inl rfl), ?_⟩
        rw [if_neg h3, if_pos h2, ← h2]
        exact (List.take_append_drop 2 _).symm
      · exact ⟨[], Or.inr (Or.inr rfl), by rw [if_neg h3, if_neg h2]; simp⟩
  unfold parseLineRefTolerant at h
  unfold dropWS at h
  by_cases hde : ((List.dropWhile isJsWhitespace
      (stripCopyMarker (List.dropWhile isJsWhitespace s))).takeWhile Char.isDigit).isEmpty
  · rw [if_pos hde] at h
    have h2 : (if (!(List.takeWhile Char.isAlpha (List.dropWhile isJsWhitespace
          (stripCopyMarker (List.dropWhile isJsWhitespace s)))).isEmpty &&
          decide ((List.dropWhile isJsWhitespace (List.dropWhile Char.isAlpha
            (List.dropWhile isJsWhitespace
              (stripCopyMarker (List.dropWhile isJsWhitespace s))))).head? =
            some '#')) = true
        then Except.error (HErr.notALineNumber s)
        else Except.error (HErr.invalidRefFormat s)) = Except.ok lr := h
    split at h2 <;> simp at h2
  · rw [if_neg hde] at h
    split at h
    case _ s5 heq1 =>
      split at h
      case _ a b rest heq2 =>
        split at h
        case isTrue hab =>
          set r2 := stripCopyMarker (List.dropWhile isJsWhitespace s) with hr2def
          have hshape : s = s.takeWhile isJsWhitespace ++ mark ++
              r2.takeWhile isJsWhitespace ++
              ((List.dropWhile isJsWhitespace r2).takeWhile Char.isDigit) ++
              ((List.dropWhile Char.isDigit
                (List.dropWhile isJsWhitespace r2)).takeWhile isJsWhitespace) ++
              '#' :: (s5.takeWhile isJsWhitespace) ++ a :: b :: rest := by
            conv_lhs => rw [← List.takeWhile_append_dropWhile isJsWhitespace s]
            rw [hsplit]
            conv_lhs =>
              rw [← List.takeWhile_append_dropWhile isJsWhitespace r2]
            conv_lhs =>
              rw [← List.takeWhile_append_dropWhile Char.isDigit
                (List.dropWhile isJsWhitespace r2)]
            conv_lhs =>
              rw [← List.takeWhile_append_dropWhile isJsWhitespace
                (List.dropWhile Char.isDigit (List.dropWhile isJsWhitespace r2))]
            rw [heq1]
            conv_lhs => rw [← List.takeWhile_append_dropWhile isJsWhitespace s5]
            rw [heq2]
            simp [List.append_assoc]
          have hsp : ∀ c ∈ s.takeWhile isJsWhitespace ++
              r2.takeWhile isJsWhitespace ++
              ((List.dropWhile Char.isDigit
                (List.dropWhile isJsWhitespace r2)).takeWhile isJsWhitespace) ++
              s5.takeWhile isJsWhitespace, isJsWhitespace c = true := by
            intro c hc
            simp only [List.mem_append] at hc
            rcases hc with ((hc | hc) | hc) | hc <;> exact List.mem_takeWhile_imp hc
          have hdne : (List.dropWhile isJsWhitespace r2).takeWhile Char.isDigit ≠
              [] := by simpa using hde
          have hdig : ∀ c ∈ (List.dropWhile isJsWhitespace r2).takeWhile Char.isDigit,
              c.isDigit = true := fun c hc => List.mem_takeWhile_imp hc
          split at h
          · injection h with hlr
            exact ⟨s.takeWhile isJsWhitespace, mark, _, _, _, s5.takeWhile isJsWhitespace,
              a, b, _, hshape, hmark, hsp, hdne, hdig, hab.1, hab.2, Or.inl rfl, hlr.symm⟩
          · injection h with hlr
            exact ⟨s.takeWhile isJsWhitespace, mark, _, _, _, s5.takeWhile isJsWhitespace,
              a, b, _, hshape, hmark, hsp, hdne, hdig, hab.1, hab.2, Or.inr ⟨_, rfl⟩,
              hlr.symm⟩
          · simp at h
        case isFalse hab => simp at h
      case _ hne2 => simp at h
    case _ hne1 => simp at h

lemma parseLineRefTolerant_kinds (s : List Char) :
    (∃ lr, parseLineRefTolerant s = .ok lr) ∨
    parseLineRefTolerant s = .error (.invalidRefFormat s) ∨
    parseLineRefTolerant s = .error (.notALineNumber s) := by
  unfold parseLineRefTolerant
  dsimp only
  repeat' split
  all_goals first
  | exact Or.inl ⟨_, rfl⟩
  | exact Or.inr (Or.inl rfl)
  | exact Or.inr (Or.inr rfl)

/-- C4 (amended): `parseLineRefTolerant` accepts `LINE#ID` bare, with a leading
`>>>` copy-paste marker, with spaces around `#`, and with a discarded
`:content` suffix; every successful parse exhibits the tolerated pattern; an
input exhibiting no such pattern fails with `InvalidReferenceFormat` — or with
the distinguished `NotALineNumber` hint when a literal token sits in the
line-number position. -/
theorem parseLineRefTolerant_spec :
    (∀ L a b, 1 ≤ L → a ∈ hashlineAlphabet → b ∈ hashlineAlphabet →
      parseLineRefTolerant (natChars L ++ '#' :: [a, b]) = .ok ⟨L, [a, b]⟩ ∧
      parseLineRefTolerant ('>' :: '>' :: '>' :: ' ' :: (natChars L ++ '#' :: [a, b])) =
        .ok ⟨L, [a, b]⟩ ∧
      parseLineRefTolerant (natChars L ++ ' ' :: '#' :: ' ' :: [a, b]) = .ok ⟨L, [a, b]⟩ ∧
      (∀ suffix, parseLineRefTolerant (natChars L ++ '#' :: a :: b :: ':' :: suffix) =
        .ok ⟨L, [a, b]⟩)) ∧
    (∀ s lr, parseLineRefTolerant s = .ok lr → refPatternAt s lr) ∧
    (∀ s, (¬∃ lr, refPatternAt s lr) →
      parseLineRefTolerant s = .error (.invalidRefFormat s) ∨
      parseLineRefTolerant s = .error (.notALineNumber s)) := by
  refine ⟨?_, parseLineRefTolerant_sound, ?_⟩
  · intro L a b _ ha hb
    exact ⟨parseTol_bare L a b ha hb, parseTol_marker L a b ha hb,
      parseTol_spaces L a b ha hb, fun suffix => parseTol_suffix L a b suffix ha hb⟩
  · intro s hnp
    rcases parseLineRefTolerant_kinds s with ⟨lr, hok⟩ | h | h
    · exact absurd ⟨lr, parseLineRefTolerant_sound s lr hok⟩ hnp
    · exact Or.inl h
    · exact Or.inr h

/-- Counterexample for C4 as stated: `LINE#HK` contains no tolerated
`LINE#ID` pattern (it contains no digit at all), yet it fails with the
distinguished `NotALineNumber` error, not with `InvalidReferenceFormat`. -/
theorem parseLineRefTolerant_counterexample :
    parseLineRefTolerant "LINE#HK".toList = .error (.notALineNumber "LINE#HK".toList) ∧
    HErr.notALineNumber "LINE#HK".toList ≠ HErr.invalidRefFormat "LINE#HK".toList ∧
    ¬∃ lr, refPatternAt "LINE#HK".toList lr := by
  refine ⟨by decide, by decide, ?_⟩
  rintro ⟨lr, sp1, mark, sp2, ds, sp3, sp4, a, b, suffix, heq, -, -, hne, hdig, -⟩
  obtain ⟨c, hc⟩ := List.exists_mem_of_ne_nil ds hne
  have hcs : c ∈ "LINE#HK".toList := by
    rw [heq]
    simp only [List.mem_append, List.mem_cons]
    tauto
  have hnodigit : ∀ x ∈ "LINE#HK".toList, x.isDigit = false := by decide
  have h2 := hdig c hc
  rw [hnodigit c hcs] at h2
  simp at h2

/-- Witness for the amended C4 at `42#VK` and friends. -/
theorem parseLineRefTolerant_spec_witness :
    parseLineRefTolerant (natChars 42 ++ '#' :: ['V', 'K']) = .ok ⟨42, ['V', 'K']⟩ ∧
    parseLineRefTolerant ('>' :: '>' :: '>' :: ' ' :: (natChars 42 ++ '#' :: ['V', 'K'])) =
      .ok ⟨42, ['V', 'K']⟩ ∧
    parseLineRefTolerant (natChars 42 ++ ' ' :: '#' :: ' ' :: ['V', 'K']) =
      .ok ⟨42, ['V', 'K']⟩ ∧
    parseLineRefTolerant (natChars 42 ++ '#' :: 'V' :: 'K' :: ':' :: "const x".toList) =
      .ok ⟨42, ['V', 'K']⟩ :=
  have h := parseLineRefTolerant_spec.1 42 'V' 'K' (by decide) (by decide) (by decide)
  ⟨h.1, h.2.1, h.2.2.1, h.2.2.2 "const x".toList⟩

lemma splitNL_ne_nil (l : List Char) : splitNL l ≠ [] := by
  cases l with
  | nil => simp [splitNL]
  | cons c rest =>
    simp only [splitNL]
    cases splitNL rest with
    | nil => simp
    | cons s ss =>
      by_cases h : c = '\n' <;> simp [h]

lemma splitNL_no_nl (l : List Char) (h : '\n' ∉ l) : splitNL l = [l] := by
  induction l with
  | nil => rfl
  | cons c rest ih =>
    have hc : c ≠ '\n' := fun heq => h (heq ▸ List.mem_cons_self c rest)
    have hr : '\n' ∉ rest := fun hm => h (List.mem_cons_of_mem c hm)
    simp only [splitNL, ih hr]
    simp [hc]

lemma splitNL_append_nl (u rest : List Char) (h : '\n' ∉ u) :
    splitNL (u ++ '\n' :: rest) = u :: splitNL rest := by
  induction u with
  | nil =>
    simp only [List.nil_append, splitNL]
    cases hs : splitNL rest with
    | nil => exact absurd hs (splitNL_ne_nil rest)
    | cons s ss => simp
  | cons c u ih =>
    have hc : c ≠ '\n' := fun heq => h (heq ▸ List.mem_cons_self c u)
    have hu : '\n' ∉ u := fun hm => h (List.mem_cons_of_mem c hm)
    have hstep : splitNL (c :: (u ++ '\n' :: rest)) =
        match splitNL (u ++ '\n' :: rest) with
        | [] => [[]]
        | s :: ss => if c = '\n' then [] :: s :: ss else (c :: s) :: ss := rfl
    rw [List.cons_append, hstep, ih hu]
    simp [hc]

lemma splitNL_concat_nl (x : List Char) : splitNL (x ++ ['\n']) = splitNL x ++ [[]] := by
  induction x with
  | nil => rfl
  | cons c t ih =>
    have hstep : splitNL (c :: (t ++ ['\n'])) =
        match splitNL (t ++ ['\n']) with
        | [] => [[]]
        | s :: ss => if c = '\n' then [] :: s :: ss else (c :: s) :: ss := rfl
    rw [List.cons_append, hstep, ih]
    cases hs : splitNL t with
    | nil => exact absurd hs (splitNL_ne_nil t)
    | cons s ss =>
      have hstep2 : splitNL (c :: t) =
          match splitNL t with
          | [] => [[]]
          | s :: ss => if c = '\n' then [] :: s :: ss else (c :: s) :: ss := rfl
      rw [hstep2, hs]
      by_cases h : c = '\n' <;> simp [h]

lemma splitNL_joinNL (ls : List (List Char)) (hne : ls ≠ [])
    (h : ∀ l ∈ ls, '\n' ∉ l) : splitNL (joinNL ls) = ls := by
  induction ls with
  | nil => exact absurd rfl hne
  | cons l rest ih =>
    cases rest with
    | nil => exact splitNL_no_nl l (h l (by simp))
    | cons m rest2 =>
      have hjoin : joinNL (l :: m :: rest2) = l ++ '\n' :: joinNL (m :: rest2) := rfl
      rw [hjoin, splitNL_append_nl _ _ (h l (by simp)),
        ih (by simp) fun x hx => h x (List.mem_cons_of_mem _ hx)]

lemma partLines_join_nl (U : List (List Char)) (hne : U ≠ [])
    (h : ∀ l ∈ U, '\n' ∉ l) : partLines (joinNL U ++ ['\n']) = U := by
  unfold partLines
  rw [splitNL_concat_nl, splitNL_joinNL U hne h]
  rw [if_pos (by simp)]
  simp

lemma partLines_line_nl (A : List Char) (h : '\n' ∉ A) :
    partLines (A ++ ['\n']) = [A] := by
  unfold partLines
  rw [splitNL_concat_nl, splitNL_no_nl A h]
  rw [if_pos (by simp)]
  simp

lemma partLines_line (A : List Char) (h : '\n' ∉ A) (hne : A ≠ []) :
    partLines A = [A] := by
  unfold partLines
  rw [splitNL_no_nl A h]
  rw [if_neg (by simp [hne])]

/-- Counterexample to C9 as stated: between two changes, the unchanged run
`x, y, z` of length 3 > 2·1 is emitted in full — with correct line numbers but
with no `...` marker row at all — for the explicit old/new pair whose
`diffLines` hunks are given here. -/
theorem generateDiffString_middle_run_counterexample :
    (generateDiffString "a\nx\ny\nz\nb".toList "A\nx\ny\nz\nB".toList
      [⟨"a\n".toList, false, true⟩, ⟨"A\n".toList, true, false⟩,
       ⟨"x\ny\nz\n".toList, false, false⟩,
       ⟨"b".toList, false, true⟩, ⟨"B".toList, true, false⟩] 1).diff =
      "-1|a\n+1|A\n 2|x\n 3|y\n 4|z\n-5|b\n+5|B".toList ∧
    markerRow 1 ∉ splitNL (generateDiffString "a\nx\ny\nz\nb".toList "A\nx\ny\nz\nB".toList
      [⟨"a\n".toList, false, true⟩, ⟨"A\n".toList, true, false⟩,
       ⟨"x\ny\nz\n".toList, false, false⟩,
       ⟨"b".toList, false, true⟩, ⟨"B".toList, true, false⟩] 1).diff := by decide

/-- C9 (amended): unchanged runs are collapsed only at the boundary of the
diff. An unchanged run sitting between two changes is emitted in full (every
line, correctly numbered, no `...` marker), even when longer than twice the
context; a leading unchanged run longer than twice the context is collapsed
into a single `...` marker followed by its last `context` lines, with both
line counters advanced past the skipped span so that all later rows carry
correct numbers; and a trailing unchanged run longer than the context is
collapsed into its first `context` lines followed by a single `...` marker. -/
theorem generateDiffString_collapse_behavior :
    (∀ (U : List (List Char)) (A B C D : List Char) (c : Nat),
      U ≠ [] → (∀ l ∈ U, '\n' ∉ l) → '\n' ∉ A → '\n' ∉ B → '\n' ∉ C → '\n' ∉ D →
      2 * c < U.length →
      generateDiffString (joinNL (A :: U ++ [C]) ++ ['\n'])
        (joinNL (B :: U ++ [D]) ++ ['\n'])
        [⟨A ++ ['\n'], false, true⟩, ⟨B ++ ['\n'], true, false⟩,
         ⟨joinNL U ++ ['\n'], false, false⟩,
         ⟨C ++ ['\n'], false, true⟩, ⟨D ++ ['\n'], true, false⟩] c =
      ⟨joinNL (numberedRows '-' (natChars (U.length + 3)).length 1 [A] ++
        numberedRows '+' (natChars (U.length + 3)).length 1 [B] ++
        numberedRows ' ' (natChars (U.length + 3)).length 2 U ++
        numberedRows '-' (natChars (U.length + 3)).length (2 + U.length) [C] ++
        numberedRows '+' (natChars (U.length + 3)).length (2 + U.length) [D]),
       some 1⟩) ∧
    (∀ (U : List (List Char)) (A B : List Char) (c : Nat),
      U ≠ [] → (∀ l ∈ U, '\n' ∉ l) → '\n' ∉ A → '\n' ∉ B → A ≠ [] → B ≠ [] →
      2 * c < U.length →
      generateDiffString (joinNL (U ++ [A])) (joinNL (U ++ [B]))
        [⟨joinNL U ++ ['\n'], false, false⟩, ⟨A, false, true⟩, ⟨B, true, false⟩] c =
      ⟨joinNL (markerRow (natChars (U.length + 1)).length ::
        (numberedRows ' ' (natChars (U.length + 1)).length (1 + (U.length - c))
          (U.drop (U.length - c)) ++
         numberedRows '-' (natChars (U.length + 1)).length (U.length + 1) [A] ++
         numberedRows '+' (natChars (U.length + 1)).length (U.length + 1) [B])),
       some (U.length + 1)⟩) ∧
    (∀ (U : List (List Char)) (A B : List Char) (c : Nat),
      U ≠ [] → (∀ l ∈ U, '\n' ∉ l) → '\n' ∉ A → '\n' ∉ B →
      c < U.length →
      generateDiffString (joinNL (A :: U) ++ ['\n']) (joinNL (B :: U) ++ ['\n'])
        [⟨A ++ ['\n'], false, true⟩, ⟨B ++ ['\n'], true, false⟩,
         ⟨joinNL U ++ ['\n'], false, false⟩] c =
      ⟨joinNL (numberedRows '-' (natChars (U.length + 2)).length 1 [A] ++
        numberedRows '+' (natChars (U.length + 2)).length 1 [B] ++
        numberedRows ' ' (natChars (U.length + 2)).length 2 (U.take c) ++
        [markerRow (natChars (U.length + 2)).length]),
       some 1⟩) := by
  refine ⟨?_, ?_, ?_⟩
  · intro U A B C D c hU hUn hA hB hC hD hc
    have hmemOld : ∀ l ∈ A :: U ++ [C], '\n' ∉ l := by
      intro l hl
      rcases List.mem_cons.mp hl with rfl | hl
      · exact hA
      · rcases List.mem_append.mp hl with hl | hl
        · exact hUn l hl
        · rw [List.mem_singleton.mp hl]
          exact hC
    have hmemNew : ∀ l ∈ B :: U ++ [D], '\n' ∉ l := by
      intro l hl
      rcases List.mem_cons.mp hl with rfl | hl
      · exact hB
      · rcases List.mem_append.mp hl with hl | hl
        · exact hUn l hl
        · rw [List.mem_singleton.mp hl]
          exact hD
    have hsplitOld : splitNL (joinNL (A :: U ++ [C]) ++ ['\n']) = (A :: U ++ [C]) ++ [[]] := by
      rw [splitNL_concat_nl, splitNL_joinNL _ (by simp) hmemOld]
    have hsplitNew : splitNL (joinNL (B :: U ++ [D]) ++ ['\n']) = (B :: U ++ [D]) ++ [[]] := by
      rw [splitNL_concat_nl, splitNL_joinNL _ (by simp) hmemNew]
    have hlenOld : (splitNL (joinNL (A :: U ++ [C]) ++ ['\n'])).length = U.length + 3 := by
      rw [hsplitOld]
      simp
    have hlenNew : (splitNL (joinNL (B :: U ++ [D]) ++ ['\n'])).length = U.length + 3 := by
      rw [hsplitNew]
      simp
    have hpA : partLines (A ++ ['\n']) = [A] := partLines_line_nl A hA
    have hpB : partLines (B ++ ['\n']) = [B] := partLines_line_nl B hB
    have hpC : partLines (C ++ ['\n']) = [C] := partLines_line_nl C hC
    have hpD : partLines (D ++ ['\n']) = [D] := partLines_line_nl D hD
    have hpU : partLines (joinNL U ++ ['\n']) = U := partLines_join_nl U hU hUn
    simp only [generateDiffString, hlenOld, hlenNew, max_self, processParts, processPart,
      hpA, hpB, hpC, hpD, hpU, Bool.false_or, Bool.or_false, Bool.or_true, Bool.true_or,
      Bool.not_true, Bool.not_false, Bool.false_and, Bool.true_and, if_true, if_false,
      List.length_cons, List.length_nil, List.nil_append, List.append_nil]
    simp [List.append_assoc]
  · intro U A B c hU hUn hA hB hAne hBne hc
    have hsplitOld : splitNL (joinNL (U ++ [A])) = U ++ [A] := by
      rw [splitNL_joinNL _ (by simp)]
      intro l hl
      rcases List.mem_append.mp hl with hl | hl
      · exact hUn l hl
      · rw [List.mem_singleton.mp hl]
        exact hA
    have hsplitNew : splitNL (joinNL (U ++ [B])) = U ++ [B] := by
      rw [splitNL_joinNL _ (by simp)]
      intro l hl
      rcases List.mem_append.mp hl with hl | hl
      · exact hUn l hl
      · rw [List.mem_singleton.mp hl]
        exact hB
    have hlenOld : (splitNL (joinNL (U ++ [A]))).length = U.length + 1 := by
      rw [hsplitOld]
      simp
    have hlenNew : (splitNL (joinNL (U ++ [B]))).length = U.length + 1 := by
      rw [hsplitNew]
      simp
    have hpU : partLines (joinNL U ++ ['\n']) = U := partLines_join_nl U hU hUn
    have hpA : partLines A = [A] := partLines_line A hA hAne
    have hpB : partLines B = [B] := partLines_line B hB hBne
    have hpos : 0 < U.length - c := by omega
    have hdroplen : (U.drop (U.length - c)).length = c := by
      rw [List.length_drop]
      omega
    simp only [generateDiffString, hlenOld, hlenNew, max_self, processParts, processPart,
      hpU, hpA, hpB, Bool.false_or, Bool.or_false, Bool.or_true, Bool.true_or,
      Bool.not_true, Bool.not_false, Bool.false_and, Bool.true_and, if_true, if_false,
      hpos, hdroplen, List.length_cons, List.length_nil, List.nil_append, List.append_nil]
    have hcu : c < U.length := by omega
    have hsub : U.length - (U.length - c) = c := by omega
    have harith : 1 + (U.length - c) + c = U.length + 1 := by omega
    simp [hcu, hsub, harith, List.append_assoc]
  · intro U A B c hU hUn hA hB hc
    have hmemOld : ∀ l ∈ A :: U, '\n' ∉ l := by
      intro l hl
      rcases List.mem_cons.mp hl with rfl | hl
      · exact hA
      · exact hUn l hl
    have hmemNew : ∀ l ∈ B :: U, '\n' ∉ l := by
      intro l hl
      rcases List.mem_cons.mp hl with rfl | hl
      · exact hB
      · exact hUn l hl
    have hsplitOld : splitNL (joinNL (A :: U) ++ ['\n']) = (A :: U) ++ [[]] := by
      rw [splitNL_concat_nl, splitNL_joinNL _ (by simp) hmemOld]
    have hsplitNew : splitNL (joinNL (B :: U) ++ ['\n']) = (B :: U) ++ [[]] := by
      rw [splitNL_concat_nl, splitNL_joinNL _ (by simp) hmemNew]
    have hlenOld : (splitNL (joinNL (A :: U) ++ ['\n'])).length = U.length + 2 := by
      rw [hsplitOld]
      simp
    have hlenNew : (splitNL (joinNL (B :: U) ++ ['\n'])).length = U.length + 2 := by
      rw [hsplitNew]
      simp
    have hpA : partLines (A ++ ['\n']) = [A] := partLines_line_nl A hA
    have hpB : partLines (B ++ ['\n']) = [B] := partLines_line_nl B hB
    have hpU : partLines (joinNL U ++ ['\n']) = U := partLines_join_nl U hU hUn
    have hpos : 0 < U.length - c := by omega
    have htake : (U.take c).length = c := by
      rw [List.length_take]
      omega
    simp only [generateDiffString, hlenOld, hlenNew, max_self, processParts, processPart,
      hpA, hpB, hpU, Bool.false_or, Bool.or_false, Bool.or_true, Bool.true_or,
      Bool.not_true, Bool.not_false, Bool.false_and, Bool.true_and, if_true, if_false,
      List.length_cons, List.length_nil, List.nil_append, List.append_nil]
    simp [hc, hpos, htake, List.append_assoc]

/-- Witness for the amended C9 on a three-line unchanged run with context 1. -/
theorem generateDiffString_collapse_behavior_witness :
    generateDiffString (joinNL ("a".toList :: ["x".toList, "y".toList, "z".toList] ++
        ["b".toList]) ++ ['\n'])
      (joinNL ("A".toList :: ["x".toList, "y".toList, "z".toList] ++ ["B".toList]) ++ ['\n'])
      [⟨"a".toList ++ ['\n'], false, true⟩, ⟨"A".toList ++ ['\n'], true, false⟩,
       ⟨joinNL ["x".toList, "y".toList, "z".toList] ++ ['\n'], false, false⟩,
       ⟨"b".toList ++ ['\n'], false, true⟩, ⟨"B".toList ++ ['\n'], true, false⟩] 1 =
    ⟨joinNL (numberedRows '-' (natChars (3 + 3)).length 1 ["a".toList] ++
      numberedRows '+' (natChars (3 + 3)).length 1 ["A".toList] ++
      numberedRows ' ' (natChars (3 + 3)).length 2 ["x".toList, "y".toList, "z".toList] ++
      numberedRows '-' (natChars (3 + 3)).length (2 + 3) ["b".toList] ++
      numberedRows '+' (natChars (3 + 3)).length (2 + 3) ["B".toList]), some 1⟩ ∧
    generateDiffString (joinNL (["x".toList, "y".toList, "z".toList] ++ ["a".toList]))
      (joinNL (["x".toList, "y".toList, "z".toList] ++ ["A".toList]))
      [⟨joinNL ["x".toList, "y".toList, "z".toList] ++ ['\n'], false, false⟩,
       ⟨"a".toList, false, true⟩, ⟨"A".toList, true, false⟩] 1 =
    ⟨joinNL (markerRow (natChars (3 + 1)).length ::
      (numberedRows ' ' (natChars (3 + 1)).length (1 + (3 - 1))
        (["x".toList, "y".toList, "z".toList].drop (3 - 1)) ++
       numberedRows '-' (natChars (3 + 1)).length (3 + 1) ["a".toList] ++
       numberedRows '+' (natChars (3 + 1)).length (3 + 1) ["A".toList])),
     some (3 + 1)⟩ ∧
    generateDiffString (joinNL ("a".toList :: ["x".toList, "y".toList, "z".toList]) ++ ['\n'])
      (joinNL ("A".toList :: ["x".toList, "y".toList, "z".toList]) ++ ['\n'])
      [⟨"a".toList ++ ['\n'], false, true⟩, ⟨"A".toList ++ ['\n'], true, false⟩,
       ⟨joinNL ["x".toList, "y".toList, "z".toList] ++ ['\n'], false, false⟩] 1 =
    ⟨joinNL (numberedRows '-' (natChars (3 + 2)).length 1 ["a".toList] ++
      numberedRows '+' (natChars (3 + 2)).length 1 ["A".toList] ++
      numberedRows ' ' (natChars (3 + 2)).length 2
        (["x".toList, "y".toList, "z".toList].take 1) ++
      [markerRow (natChars (3 + 2)).length]),
     some 1⟩ :=
  ⟨generateDiffString_collapse_behavior.1 ["x".toList, "y".toList, "z".toList]
    "a".toList "A".toList "b".toList "B".toList 1 (by decide) (by decide) (by decide)
    (by decide) (by decide) (by decide) (by decide),
   generateDiffString_collapse_behavior.2.1 ["x".toList, "y".toList, "z".toList]
    "a".toList "A".toList 1 (by decide) (by decide) (by decide) (by decide) (by decide)
    (by decide) (by decide),
   generateDiffString_collapse_behavior.2.2 ["x".toList, "y".toList, "z".toList]
    "a".toList "A".toList 1 (by decide) (by decide) (by decide) (by decide) (by decide)⟩
